import Mathlib

/-!
Verification development for the SRAMPlatform daisy-chain node firmware.

The C sources embedded here are:
  - `main.c` (chain protocol engine: packet loop, CRC check, dispatch),
  - `sramplatform.c` (packet codec, SRAM block access),
  - `zforth.c` / `zforth.h` (the Forth-style bytecode VM).

The header `sramplatform.h` is not part of the available sources; the
constants and helpers it provides (packet geometry, command byte values,
`STR_MATCH`, the serialized image used by `make_crc`) are modelled from the
specification and marked as such in their doc comments.

Machine integers are modelled as `Nat` / `Int` with explicit reduction
modulo `2^w` where the C code wraps.  Memories (dictionary, SRAM, the two
stacks) are modelled as association lists from addresses to values with a
zero default, matching uninitialised C memory read through the accessors.
-/

namespace SRAM

/-! ## Machine integer helpers -/

/-- Value of an `Int` reinterpreted as the 32 bits of a C `unsigned int`
(the effect of converting `zf_cell` to `zf_addr` / `unsigned int`). -/
def u32 (x : Int) : Nat := (x % (2 ^ 32 : Nat)).toNat

/-- Reinterpret the low 32 bits of a `Nat` as a C `int32_t` (two's
complement), the effect of converting `unsigned int` to `zf_cell`. -/
def i32n (n : Nat) : Int :=
  if n % 2 ^ 32 < 2 ^ 31 then ((n % 2 ^ 32 : Nat) : Int)
  else ((n % 2 ^ 32 : Nat) : Int) - 2 ^ 32

/-- Wrap an `Int` to the `int32_t` range (two's complement overflow of C
arithmetic on `zf_cell`). -/
def i32 (x : Int) : Int := i32n (u32 x)

/-- Little-endian 4-byte image of the low 32 bits of a `Nat`
(the in-memory image of a `uint32_t` / `int32_t` on the ARM target). -/
def le4 (n : Nat) : List Nat :=
  [n % 256, n / 256 % 256, n / 65536 % 256, n / 16777216 % 256]

/-- Little-endian 2-byte image of the low 16 bits of a `Nat`. -/
def le2 (n : Nat) : List Nat := [n % 256, n / 256 % 256]

/-- Reassemble a little-endian byte list into a `Nat`. -/
def from_le : List Nat → Nat
  | [] => 0
  | b :: t => b % 256 + 256 * from_le t

/-! ## Byte memories as association lists

An association list records the bytes that have been written; unwritten
locations read back 0, standing in for the unspecified contents of C
memory.  The most recent write to an address shadows earlier ones. -/

/-- Read a byte of an association-list memory (0 when never written). -/
def fetchB : List (Nat × Nat) → Nat → Nat
  | [], _ => 0
  | (a, v) :: t, x => if a = x then v else fetchB t x

/-- Write one byte (reduced mod 256, as a C `uint8_t` store). -/
def storeB (m : List (Nat × Nat)) (a v : Nat) : List (Nat × Nat) :=
  (a, v % 256) :: m

/-- Write a list of bytes at consecutive addresses. -/
def storeBytes (m : List (Nat × Nat)) (a : Nat) : List Nat → List (Nat × Nat)
  | [] => m
  | b :: t => storeBytes (storeB m a b) (a + 1) t

/-- Read `len` bytes starting at address `a`. -/
def fetchBytes (m : List (Nat × Nat)) (a len : Nat) : List Nat :=
  (List.range len).map (fun i => fetchB m (a + i))

/-- Read a little-endian 32-bit word. -/
def fetch32 (m : List (Nat × Nat)) (a : Nat) : Nat :=
  from_le (fetchBytes m a 4)

/-- Store a little-endian 32-bit word. -/
def store32 (m : List (Nat × Nat)) (a v : Nat) : List (Nat × Nat) :=
  storeBytes m a (le4 v)

/-- Cell memories (the two VM stacks): index to `zf_cell` value. -/
def fetchC : List (Nat × Int) → Nat → Int
  | [], _ => 0
  | (a, v) :: t, x => if a = x then v else fetchC t x

/-- Write a cell at an index. -/
def storeC (m : List (Nat × Int)) (a : Nat) (v : Int) : List (Nat × Int) :=
  (a, i32 v) :: m

/-! ## Protocol constants

Modelled from the spec: `sramplatform.h` is absent from the sources.  The
spec fixes the wire size P = 64 with layout command(1), pic(1),
options(4, LE), uid(25), data(D), checksum(2, LE), hence D = 31; command
byte values are implementation-assigned, taken here in the order the spec
lists them; the PING/SENSORS sub-selectors are likewise assigned small
distinct values with `ALL` shared between the two commands. -/

/-- Modelled from the spec: payload block size D (P = 31 + D + 2, P = 64). -/
def DATA_SIZE : Nat := 31

/-- Modelled from the spec: total wire size of a packet. -/
def PACKET_SIZE : Nat := 64

/-- Modelled from the spec: size of the uid field (24 hex chars + NUL). -/
def UID_SIZE : Nat := 25

/-- Modelled from the spec: command byte values, in the order the spec
lists them (`sramplatform.h` is absent). -/
def PING : Nat := 0
/-- Modelled from the spec: READ command byte. -/
def READ : Nat := 1
/-- Modelled from the spec: WRITE command byte. -/
def WRITE : Nat := 2
/-- Modelled from the spec: SENSORS command byte. -/
def SENSORS : Nat := 3
/-- Modelled from the spec: LOAD command byte. -/
def LOAD : Nat := 4
/-- Modelled from the spec: EXEC command byte. -/
def EXEC : Nat := 5
/-- Modelled from the spec: RETR command byte. -/
def RETR : Nat := 6
/-- Modelled from the spec: ACK command byte. -/
def ACK : Nat := 7
/-- Modelled from the spec: ERR command byte. -/
def ERR : Nat := 8

/-- Modelled from the spec: PING sub-selector for a targeted probe. -/
def OWN : Nat := 0
/-- Modelled from the spec: broadcast sub-selector, shared by PING and
SENSORS. -/
def ALL : Nat := 1
/-- Modelled from the spec: SENSORS temperature sub-selector. -/
def TEMP : Nat := 2
/-- Modelled from the spec: SENSORS Vdd sub-selector. -/
def VDD : Nat := 3

/-- Byte offset of `SRC_BUF` from `SRAM_START` (`SRC_BUF_OFFSET * DATA_SIZE`,
`sramconf.h` line 24). -/
def SRC_BUF_BASE : Nat := 56 * DATA_SIZE

/-- Byte offset of `WRITE_BUF` from `SRAM_START` (`WRITE_BUF_OFFSET *
DATA_SIZE`, `sramconf.h` line 27). -/
def WRITE_BUF_BASE : Nat := 58 * DATA_SIZE

/-- `WRITE_BUF_MAX` from `sramconf.h`: wrap bound of `write_pos`, equal to
`DATA_SIZE`. -/
def WRITE_BUF_MAX : Nat := DATA_SIZE

/-! ## CRC and the packet codec -/

/-- `crc16` from `main.c` lines 108-112: iterate the byte step function
over a buffer.  The step function `crc16_byte` lives outside the covered
sources (spec §1 places it out of scope), so it is a parameter. -/
def crc16 (step : Nat → Nat → Nat) (crc : Nat) (buf : List Nat) : Nat :=
  buf.foldl step crc

/-- A packet record (`packet_t`): field widths are command 8, pic 8,
options 32, uid 25 bytes, data `DATA_SIZE` bytes, checksum 16. -/
structure Packet where
  command : Nat
  pic : Nat
  options : Nat
  uid : List Nat
  data : List Nat
  checksum : Nat
  deriving Repr, DecidableEq

/-- `parse_packet` from `sramplatform.c` lines 56-70. -/
def parse_packet (b : List Nat) : Packet :=
  { command := b.getD 0 0
    pic := b.getD 1 0
    options := b.getD 2 0 + 256 * b.getD 3 0 + 65536 * b.getD 4 0 +
      16777216 * b.getD 5 0
    uid := (b.drop 6).take UID_SIZE
    data := (b.drop 31).take DATA_SIZE
    checksum := b.getD (PACKET_SIZE - 2) 0 + 256 * b.getD (PACKET_SIZE - 1) 0 }

/-- Pad or truncate a list to exactly `n` bytes (the fixed-width field
arrays of `packet_t`). -/
def padTo (n : Nat) (l : List Nat) : List Nat :=
  (l.take n) ++ List.replicate (n - l.length) 0

/-- Wire image written by `send_packet` (`sramplatform.c` lines 75-82):
command(1), pic(1), options(4, LE), uid(25), data(DATA_SIZE),
checksum(2, LE), each field transmitted from its in-memory image. -/
def send_packet (p : Packet) : List Nat :=
  [p.command % 256, p.pic % 256] ++ le4 p.options ++ padTo UID_SIZE p.uid ++
    padTo DATA_SIZE p.data ++ le2 p.checksum

/-- Modelled from the spec: `make_crc` (`sramplatform.c` lines 84-89)
copies the `packet_t` memory image into the scratch buffer, zeroes the two
checksum bytes and takes the CRC-16.  The struct layout comes from the
absent `sramplatform.h`; per spec §4.1/§9(a) the zeroed serialized image
is the wire layout with the checksum bytes zero. -/
def make_crc (step : Nat → Nat → Nat) (p : Packet) : Nat :=
  crc16 step 0 (send_packet { p with checksum := 0 })

/-! ## VM: result codes and machine state -/

/-- The `zf_result` enumeration from `zforth.h` lines 57-71, in declaration
order. -/
inductive ZR where
  | zOk
  | zInternalError
  | zOutsideMem
  | zDstackUnderrun
  | zDstackOverrun
  | zRstackUnderrun
  | zRstackOverrun
  | zNotAWord
  | zCompileOnlyWord
  | zInvalidSize
  | zDivisionByZero
  | zInvalidUservar
  | zExternal
  deriving Repr, DecidableEq

/-- Numeric value of a `zf_result` (its position in the C enum). -/
def zr_code : ZR → Nat
  | .zOk => 0
  | .zInternalError => 1
  | .zOutsideMem => 2
  | .zDstackUnderrun => 3
  | .zDstackOverrun => 4
  | .zRstackUnderrun => 5
  | .zRstackOverrun => 6
  | .zNotAWord => 7
  | .zCompileOnlyWord => 8
  | .zInvalidSize => 9
  | .zDivisionByZero => 10
  | .zInvalidUservar => 11
  | .zExternal => 12

/-- Abnormal outcome of a VM computation: either the evaluation fuel ran
out (the C code is still looping), or `zf_abort` performed its `longjmp`
with the given reason. -/
inductive VmErr where
  | fuel
  | abort (r : ZR)
  deriving Repr, DecidableEq

/-- Machine state: the VM globals of `zforth.c` (dictionary, the two
stacks, stack pointers, IP, input mode, the static token buffer of
`handle_char`) together with the globals of `main.c` it shares
(the SRAM surface holding `SRC_BUF`/`WRITE_BUF`, `write_pos`, and the two
sensor words).  `sram` is keyed by byte offset from `SRAM_START`. -/
structure ZS where
  dict : List (Nat × Nat)
  dstack : List (Nat × Int)
  rstack : List (Nat × Int)
  dsp : Nat
  rsp : Nat
  ip : Nat
  mode : Nat
  wbuf : List Nat
  sram : List (Nat × Nat)
  write_pos : Nat
  sens0 : Nat
  sens1 : Nat
  deriving Repr, DecidableEq

/-- The all-zero initial state (static storage is zero-initialised in C). -/
def zs0 : ZS := ⟨[], [], [], 0, 0, 0, 0, [], [], 0, 0, 0⟩

/-- Outcome of a stateful VM computation. -/
inductive Res (α : Type) where
  | ok (a : α) (s : ZS)
  | err (e : VmErr) (s : ZS)
  deriving DecidableEq

/-- Sequencing of `Res` computations: errors propagate with their state. -/
def rbind (x : Res α) (f : α → ZS → Res β) : Res β :=
  match x with
  | .ok a s => f a s
  | .err e s => .err e s

/-- Wrapped 32-bit subtraction on `zf_addr` values (`a` below `2^32`). -/
def subw (a b : Nat) : Nat := (a + 2 ^ 32 - b % 2 ^ 32) % 2 ^ 32

/-! ## VM: stack operations (`zforth.c` lines 205-237)

`ZF_ENABLE_BOUNDARY_CHECKS` is 0 in the shipped configuration
(`zforth.h` line 25), so the `CHECK` macro expands to nothing and every
operation is a total function: an out-of-range index is an unchecked
access into the association-list memory, never an abort. -/

/-- `zf_push`: `dstack[dsp++] = v` with no overrun check. -/
def zf_push (v : Int) (s : ZS) : ZS :=
  { s with dstack := storeC s.dstack s.dsp v, dsp := (s.dsp + 1) % 2 ^ 32 }

/-- `zf_pop`: `v = dstack[--dsp]` with no underrun check; at `dsp = 0` the
unsigned pointer wraps to `2^32 - 1` and the read is out of bounds. -/
def zf_pop (s : ZS) : Int × ZS :=
  let d := subw s.dsp 1
  (fetchC s.dstack d, { s with dsp := d })

/-- `zf_pick`: read `dstack[dsp - n - 1]` with no check. -/
def zf_pick (n : Nat) (s : ZS) : Int :=
  fetchC s.dstack (subw s.dsp (n + 1))

/-- `zf_pushr`: `rstack[rsp++] = v` with no check. -/
def zf_pushr (v : Int) (s : ZS) : ZS :=
  { s with rstack := storeC s.rstack s.rsp v, rsp := (s.rsp + 1) % 2 ^ 32 }

/-- `zf_popr`: `v = rstack[--rsp]` with no check. -/
def zf_popr (s : ZS) : Int × ZS :=
  let d := subw s.rsp 1
  (fetchC s.rstack d, { s with rsp := d })

/-- `zf_pickr`: read `rstack[rsp - n - 1]` with no check. -/
def zf_pickr (n : Nat) (s : ZS) : Int :=
  fetchC s.rstack (subw s.rsp (n + 1))

/-! ## VM: user variables and dictionary access -/

/-- Read user variable `i`: `uservar` aliases the start of `dict` as an
array of `zf_addr`, so this is the little-endian 32-bit word at byte
offset `4*i` (`zforth.c` line 184). -/
def getUv (s : ZS) (i : Nat) : Nat := fetch32 s.dict (4 * i)

/-- Write user variable `i` as a 32-bit word at byte offset `4*i`. -/
def setUv (i v : Nat) (s : ZS) : ZS :=
  { s with dict := store32 s.dict (4 * i) (v % 2 ^ 32) }

/-- Store bytes at consecutive `zf_addr` addresses, each reduced mod
`2^32` (the address increment wraps in `unsigned int`). -/
def storeBytesW (m : List (Nat × Nat)) (a : Nat) : List Nat → List (Nat × Nat)
  | [] => m
  | b :: t => storeBytesW (storeB m (a % 2 ^ 32) b) (a + 1) t

/-- Read `len` bytes at consecutive wrapped `zf_addr` addresses. -/
def fetchBytesW (m : List (Nat × Nat)) (a len : Nat) : List Nat :=
  (List.range len).map (fun i => fetchB m ((a + i) % 2 ^ 32))

/-- `dict_put_bytes` (`zforth.c` lines 243-250): the `CHECK` is compiled
out, so the write always happens and the length is returned. -/
def dict_put_bytes (addr : Nat) (bs : List Nat) (s : ZS) : Nat × ZS :=
  (bs.length, { s with dict := storeBytesW s.dict addr bs })

/-- `dict_get_bytes` (`zforth.c` lines 252-257), `CHECK` compiled out. -/
def dict_get_bytes (s : ZS) (addr len : Nat) : List Nat :=
  fetchBytesW s.dict addr len

/-- The `ZF_MEM_SIZE_VAR` branch of `dict_put_cell_typed` (`zforth.c`
lines 281-297), as a total function.  With `zf_cell = int32_t` the guard
`(v - vi) == 0` is an always-true unsigned comparison, so only the value
of `vi = (unsigned int)v` decides the encoding.  For `128 ≤ vi < 16384`
the first byte is `(vi >> 8) | 0x80`, which equals `vi / 256 + 128`
because `vi >> 8 < 64`. -/
def put_cell_var (addr : Nat) (v : Int) (s : ZS) : Nat × ZS :=
  let vi := u32 v
  if vi < 128 then dict_put_bytes addr [vi] s
  else if vi < 16384 then dict_put_bytes addr [vi / 256 + 128, vi % 256] s
  else
    let (l1, s1) := dict_put_bytes addr [255] s
    let (l2, s2) := dict_put_bytes (addr + 1) (le4 vi) s1
    (l1 + l2, s2)

/-- The `ZF_MEM_SIZE_VAR` branch of `dict_get_cell_typed` (`zforth.c`
lines 315-328), as a total function.  `t[0] & 0x80` on a byte is the test
`128 ≤ t0`, and `t[0] & 0x3f` is `t0 % 64`. -/
def get_cell_var (s : ZS) (addr : Nat) : Int × Nat :=
  let t0 := fetchB s.dict (addr % 2 ^ 32)
  let t1 := fetchB s.dict ((addr + 1) % 2 ^ 32)
  if 128 ≤ t0 then
    if t0 = 255 then
      (i32n (from_le (dict_get_bytes s (addr + 1) 4)), 5)
    else (((t0 % 64) * 256 + t1 : Nat), 2)
  else ((t0 : Int), 1)

/-- `dict_put_cell_typed` (`zforth.c` lines 277-309).  `size` is the value
of the C `zf_mem_size` argument (an `int` after the cast at the call
sites); a value outside the enum aborts with `ZF_ABORT_INVALID_SIZE`.
The typed branches store the raw fixed-width little-endian image of
`vi = (unsigned int)v`. -/
def dict_put_cell_typed (addr : Nat) (v : Int) (size : Int) (s : ZS) :
    Res Nat :=
  let vi := u32 v
  if size = 0 then
    let (l, s1) := put_cell_var addr v s
    .ok l s1
  else if size = 1 then
    let (l, s1) := dict_put_bytes addr (le4 vi) s
    .ok l s1
  else if size = 2 then
    let (l, s1) := dict_put_bytes addr [vi % 256] s
    .ok l s1
  else if size = 3 then
    let (l, s1) := dict_put_bytes addr (le2 vi) s
    .ok l s1
  else if size = 4 then
    let (l, s1) := dict_put_bytes addr (le4 vi) s
    .ok l s1
  else if size = 5 then
    let (l, s1) := dict_put_bytes addr [vi % 256] s
    .ok l s1
  else if size = 6 then
    let (l, s1) := dict_put_bytes addr (le2 vi) s
    .ok l s1
  else if size = 7 then
    let (l, s1) := dict_put_bytes addr (le4 vi) s
    .ok l s1
  else .err (.abort .zInvalidSize) s

/-- `dict_get_cell_typed` (`zforth.c` lines 311-340).  The unsigned reads
come back as the stored value; the signed reads sign-extend; `CELL`,
`U32` and `S32` reinterpret the 32-bit word as `int32_t`. -/
def dict_get_cell_typed (addr : Nat) (size : Int) (s : ZS) :
    Res (Int × Nat) :=
  let t0 := fetchB s.dict (addr % 2 ^ 32)
  let t1 := fetchB s.dict ((addr + 1) % 2 ^ 32)
  if size = 0 then
    let (v, l) := get_cell_var s addr
    .ok (v, l) s
  else if size = 1 then
    .ok (i32n (from_le (dict_get_bytes s addr 4)), 4) s
  else if size = 2 then .ok ((t0 : Int), 1) s
  else if size = 3 then .ok ((t0 + 256 * t1 : Nat), 2) s
  else if size = 4 then
    .ok (i32n (from_le (dict_get_bytes s addr 4)), 4) s
  else if size = 5 then
    .ok (if t0 < 128 then (t0 : Int) else (t0 : Int) - 256, 1) s
  else if size = 6 then
    .ok (if t0 + 256 * t1 < 2 ^ 15 then ((t0 + 256 * t1 : Nat) : Int)
      else ((t0 + 256 * t1 : Nat) : Int) - 2 ^ 16, 2) s
  else if size = 7 then
    .ok (i32n (from_le (dict_get_bytes s addr 4)), 4) s
  else .err (.abort .zInvalidSize) s

/-- `dict_put_cell` (`zforth.c` lines 346-348): variable-size write. -/
def dict_put_cell (addr : Nat) (v : Int) (s : ZS) : Nat × ZS :=
  put_cell_var addr v s

/-- `dict_get_cell` (`zforth.c` lines 350-352): variable-size read. -/
def dict_get_cell (s : ZS) (addr : Nat) : Int × Nat :=
  get_cell_var s addr

/-- `dict_add_cell_typed` (`zforth.c` lines 359-361): write at `HERE` and
advance `HERE` by the returned length. -/
def dict_add_cell_typed (v : Int) (size : Int) (s : ZS) : Res Unit :=
  let h := getUv s 0
  match dict_put_cell_typed h v size s with
  | .ok l s1 => .ok () (setUv 0 ((h + l) % 2 ^ 32) s1)
  | .err e s1 => .err e s1

/-- `dict_add_cell` (`zforth.c` lines 363-365), total since the
variable-size write cannot abort. -/
def dict_add_cell (v : Int) (s : ZS) : ZS :=
  let h := getUv s 0
  let (l, s1) := put_cell_var h v s
  setUv 0 ((h + l) % 2 ^ 32) s1

/-- `dict_add_op` (`zforth.c` lines 367-369). -/
def dict_add_op (op : Nat) (s : ZS) : ZS := dict_add_cell (i32n op) s

/-- `dict_add_lit` (`zforth.c` lines 371-374): compile `LIT v`. -/
def dict_add_lit (v : Int) (s : ZS) : ZS := dict_add_cell v (dict_add_op 1 s)

/-- `dict_add_str` (`zforth.c` lines 376-380). -/
def dict_add_str (bs : List Nat) (s : ZS) : ZS :=
  let h := getUv s 0
  let (l, s1) := dict_put_bytes h bs s
  setUv 0 ((h + l) % 2 ^ 32) s1

/-- `create` (`zforth.c` lines 386-393): append a word header
(`len|flags`, link to `LATEST`, raw name) and point `LATEST` at it. -/
def create (name : List Nat) (flags : Nat) (s : ZS) : ZS :=
  let here_prev := getUv s 0
  let s1 := dict_add_cell (i32n (name.length ||| flags)) s
  let s2 := dict_add_cell (i32n (getUv s1 1)) s1
  let s3 := dict_add_str name s2
  setUv 1 here_prev s3

/-- Loop body of `find_word` (`zforth.c` lines 399-422): walk the `link`
chain from `w`, matching on exact length (`lenflags & 0x1f`) and
byte-identical name.  The chain can be made cyclic by writes to the
dictionary, so the walk carries fuel. -/
def find_word_loop (name : List Nat) : Nat → Nat → ZS → Res (Option (Nat × Nat))
  | _, 0, s => .err .fuel s
  | w, fuel + 1, s =>
    if w = 0 then .ok none s
    else
      let (d, l1) := get_cell_var s w
      let p1 := (w + l1) % 2 ^ 32
      let (link, l2) := get_cell_var s p1
      let p := (p1 + l2) % 2 ^ 32
      let len := u32 d % 32
      if len = name.length ∧ fetchBytesW s.dict p len = name then
        .ok (some (w, (p + len) % 2 ^ 32)) s
      else find_word_loop name (u32 link) fuel s

/-- `find_word`: start the walk at `LATEST`. -/
def find_word (name : List Nat) (fuel : Nat) (s : ZS) :
    Res (Option (Nat × Nat)) :=
  find_word_loop name (getUv s 1) fuel s

/-- `make_immediate` (`zforth.c` lines 428-432): OR the IMMEDIATE flag
(`1 << 6`) into the `len_flags` cell of the latest word. -/
def make_immediate (s : ZS) : ZS :=
  let (d, _) := get_cell_var s (getUv s 1)
  (put_cell_var (getUv s 1) (i32n (u32 d ||| 64)) s).2

/-- `peek` (`zforth.c` lines 480-488): an address below
`ZF_USERVAR_COUNT = 5` reads the user variable directly with reported
length 1, ignoring `len`; otherwise a typed dictionary read. -/
def peek (addr : Nat) (len : Int) (s : ZS) : Res (Int × Nat) :=
  if addr < 5 then .ok (i32n (getUv s addr), 1) s
  else dict_get_cell_typed addr len s

/-! ## VM: primitives (`do_prim`, `zforth.c` lines 494-730)

The opcode numbers follow the `zf_prim` enum (lines 99-142): EXIT 0,
LIT 1, LTZ 2, COL 3, SEMICOL 4, ADD 5, SUB 6, MUL 7, DIV 8, MOD 9,
DROP 10, DUP 11, PICKR 12, IMMEDIATE 13, PEEK 14, POKE 15, SWAP 16,
ROT 17, JMP 18, JMP0 19, TICK 20, COMMENT 21, PUSHR 22, POPR 23,
EQUAL 24, SYS 25, PICK 26, COMMA 27, KEY 28, LITS 29, LEN 30, AND 31,
OR 32, XOR 33, SHL 34, SHR 35, EMIT 36, DEVREAD 37, DEVWRITE 38,
DEVTEMP 39, DEVVDD 40, with `PRIM_COUNT = 41`.

`inp` is the deferred input token: `none` when `do_prim` is entered from
compiled code, `some token` when `handle_word`/`handle_char` resumes a
deferred primitive (for `PASS_CHAR` resumption the token is the single
pending character).  `SYS` has no case in the C switch and falls to the
`default:` abort.  The shift amounts of `<<`/`>>` outside `[0, 32)` are
undefined behaviour in C; the model uses the ARM barrel-shifter result
(zero, resp. the sign). -/
def do_prim (op : Nat) (inp : Option (List Nat)) (fuel : Nat) (s : ZS) :
    Res Unit :=
  match op with
  | 0 =>
    let (v, s1) := zf_popr s
    .ok () { s1 with ip := u32 v }
  | 1 =>
    let (d1, l) := get_cell_var s s.ip
    .ok () (zf_push d1 { s with ip := (s.ip + l) % 2 ^ 32 })
  | 2 =>
    let (v, s1) := zf_pop s
    .ok () (zf_push (if v < 0 then 1 else 0) s1)
  | 3 =>
    match inp with
    | none => .ok () { s with mode := 2 }
    | some w => .ok () (setUv 3 1 (create w 0 s))
  | 4 => .ok () (setUv 3 0 (dict_add_op 0 s))
  | 5 =>
    let (d1, s1) := zf_pop s
    let (d2, s2) := zf_pop s1
    .ok () (zf_push (i32 (d1 + d2)) s2)
  | 6 =>
    let (d1, s1) := zf_pop s
    let (d2, s2) := zf_pop s1
    .ok () (zf_push (i32 (d2 - d1)) s2)
  | 7 =>
    let (d1, s1) := zf_pop s
    let (d2, s2) := zf_pop s1
    .ok () (zf_push (i32 (d1 * d2)) s2)
  | 8 =>
    let (d2, s1) := zf_pop s
    if d2 = 0 then .err (.abort .zDivisionByZero) s1
    else
      let (d1, s2) := zf_pop s1
      .ok () (zf_push (i32 (Int.tdiv d1 d2)) s2)
  | 9 =>
    let (d2, s1) := zf_pop s
    if d2 = 0 then .err (.abort .zDivisionByZero) s1
    else
      let (d1, s2) := zf_pop s1
      .ok () (zf_push (i32 (Int.tmod d1 d2)) s2)
  | 10 => .ok () (zf_pop s).2
  | 11 =>
    let (d1, s1) := zf_pop s
    .ok () (zf_push d1 (zf_push d1 s1))
  | 12 =>
    let (n, s1) := zf_pop s
    .ok () (zf_push (zf_pickr (u32 n) s1) s1)
  | 13 => .ok () (make_immediate s)
  | 14 =>
    let (lv, s1) := zf_pop s
    let (av, s2) := zf_pop s1
    match peek (u32 av) (i32 lv) s2 with
    | .ok (d1, _) s3 => .ok () (zf_push d1 s3)
    | .err e s3 => .err e s3
  | 15 =>
    let (d2, s1) := zf_pop s
    let (av, s2) := zf_pop s1
    let (d1, s3) := zf_pop s2
    if u32 av < 5 then .ok () (setUv (u32 av) (u32 d1) s3)
    else
      match dict_put_cell_typed (u32 av) d1 d2 s3 with
      | .ok _ s4 => .ok () s4
      | .err e s4 => .err e s4
  | 16 =>
    let (d1, s1) := zf_pop s
    let (d2, s2) := zf_pop s1
    .ok () (zf_push d2 (zf_push d1 s2))
  | 17 =>
    let (d1, s1) := zf_pop s
    let (d2, s2) := zf_pop s1
    let (d3, s3) := zf_pop s2
    .ok () (zf_push d3 (zf_push d1 (zf_push d2 s3)))
  | 18 =>
    let (d1, _) := get_cell_var s s.ip
    .ok () { s with ip := u32 d1 }
  | 19 =>
    let (d1, l) := get_cell_var s s.ip
    let (v, s1) := zf_pop { s with ip := (s.ip + l) % 2 ^ 32 }
    .ok () (if v = 0 then { s1 with ip := u32 d1 } else s1)
  | 20 =>
    if getUv s 3 ≠ 0 then
      let (d1, l) := get_cell_var s s.ip
      .ok () (zf_push d1 { s with ip := (s.ip + l) % 2 ^ 32 })
    else
      match inp with
      | some w =>
        match find_word w fuel s with
        | .ok (some (_, c)) s1 => .ok () (zf_push (i32n c) s1)
        | .ok none s1 => .err (.abort .zInternalError) s1
        | .err e s1 => .err e s1
      | none => .ok () { s with mode := 2 }
  | 21 =>
    match inp with
    | none => .ok () { s with mode := 1 }
    | some l => if l.getD 0 0 = 41 then .ok () s else .ok () { s with mode := 1 }
  | 22 =>
    let (v, s1) := zf_pop s
    .ok () (zf_pushr v s1)
  | 23 =>
    let (v, s1) := zf_popr s
    .ok () (zf_push v s1)
  | 24 =>
    let (d1, s1) := zf_pop s
    let (d2, s2) := zf_pop s1
    .ok () (zf_push (if d1 = d2 then 1 else 0) s2)
  | 26 =>
    let (n, s1) := zf_pop s
    .ok () (zf_push (zf_pick (u32 n) s1) s1)
  | 27 =>
    let (d2, s1) := zf_pop s
    let (d1, s2) := zf_pop s1
    match dict_add_cell_typed d1 d2 s2 with
    | .ok _ s3 => .ok () s3
    | .err e s3 => .err e s3
  | 28 =>
    match inp with
    | none => .ok () { s with mode := 1 }
    | some l => .ok () (zf_push ((l.getD 0 0 : Nat) : Int) s)
  | 29 =>
    let (d1, l) := get_cell_var s s.ip
    let ip1 := (s.ip + l) % 2 ^ 32
    .ok () { zf_push d1 (zf_push (i32n ip1) { s with ip := ip1 }) with
      ip := (ip1 + u32 d1) % 2 ^ 32 }
  | 30 =>
    let (lv, s1) := zf_pop s
    let (av, s2) := zf_pop s1
    match peek (u32 av) (i32 lv) s2 with
    | .ok (_, l) s3 => .ok () (zf_push (i32n l) s3)
    | .err e s3 => .err e s3
  | 31 =>
    let (d1, s1) := zf_pop s
    let (d2, s2) := zf_pop s1
    .ok () (zf_push (i32n (u32 d1 &&& u32 d2)) s2)
  | 32 =>
    let (d1, s1) := zf_pop s
    let (d2, s2) := zf_pop s1
    .ok () (zf_push (i32n (u32 d1 ||| u32 d2)) s2)
  | 33 =>
    let (d1, s1) := zf_pop s
    let (d2, s2) := zf_pop s1
    .ok () (zf_push (i32n (u32 d1 ^^^ u32 d2)) s2)
  | 34 =>
    let (d1, s1) := zf_pop s
    let (x, s2) := zf_pop s1
    .ok () (zf_push (if u32 d1 < 32 then i32n (u32 x * 2 ^ u32 d1) else 0) s2)
  | 35 =>
    let (d1, s1) := zf_pop s
    let (x, s2) := zf_pop s1
    .ok () (zf_push
      (if u32 d1 < 32 then Int.ediv x (2 ^ u32 d1)
       else if x < 0 then -1 else 0) s2)
  | 36 =>
    let (d1, s1) := zf_pop s
    let wp1 := (s1.write_pos + 1) % 2 ^ 32
    .ok () { s1 with
      sram := store32 s1.sram (WRITE_BUF_BASE + 4 * s1.write_pos) (u32 d1),
      write_pos := if wp1 = WRITE_BUF_MAX then 0 else wp1 }
  | 37 =>
    let (off, s1) := zf_pop s
    .ok () (zf_push ((fetchB s1.sram (u32 off) : Nat) : Int) s1)
  | 38 =>
    let (d1, s1) := zf_pop s
    let (d2, s2) := zf_pop s1
    .ok () { s2 with sram := storeB s2.sram (u32 d1) (u32 d2 % 256) }
  | 39 => .ok () (zf_push (i32n s.sens0) s)
  | 40 => .ok () (zf_push (i32n s.sens1) s)
  | _ => .err (.abort .zInternalError) s

/-! ## VM: inner interpreter and outer driver -/

/-- The `while` loop of `run` (`zforth.c` lines 438-465): fetch the cell
at IP, execute primitives directly, call other words by pushing the
return address; a primitive that switches the input mode restores IP and
leaves the loop; `input` is cleared after the first iteration. -/
def run_loop (inp : Option (List Nat)) : Nat → ZS → Res Unit
  | 0, s => .err .fuel s
  | fuel + 1, s =>
    if s.ip = 0 then .ok () s
    else
      let ip_org := s.ip
      let (d, l) := get_cell_var s s.ip
      let code := u32 d
      let s1 := { s with ip := (s.ip + l) % 2 ^ 32 }
      if code ≤ 41 then
        match do_prim code inp fuel s1 with
        | .err e s2 => .err e s2
        | .ok _ s2 =>
          if s2.mode ≠ 0 then .ok () { s2 with ip := ip_org }
          else run_loop none fuel s2
      else
        run_loop none fuel { zf_pushr (i32n s1.ip) s1 with ip := code }

/-- `execute` (`zforth.c` lines 471-478): reset RSP, push the sentinel 0
and run from `addr`. -/
def execute (addr fuel : Nat) (s : ZS) : Res Unit :=
  run_loop none fuel (zf_pushr 0 { s with ip := addr % 2 ^ 32, rsp := 0 })

/-- Number syntax of `zf_host_parse_num` (`zforth.c` lines 939-947):
`sscanf("%li")` over a NUL-terminated token, then the whole token must
have been consumed.  `%li` accepts an optional sign and decimal, `0x`
hex or leading-`0` octal digits, clamping on overflow as `strtol` does. -/
def digVal (c : Nat) : Option Nat :=
  if 48 ≤ c ∧ c ≤ 57 then some (c - 48)
  else if 97 ≤ c ∧ c ≤ 102 then some (c - 87)
  else if 65 ≤ c ∧ c ≤ 70 then some (c - 55)
  else none

/-- Greedy digit run in the given base: accumulated value and count. -/
def takeDigitsAux (base acc cnt : Nat) : List Nat → Nat × Nat
  | [] => (acc, cnt)
  | c :: t =>
    match digVal c with
    | some d => if d < base then takeDigitsAux base (acc * base + d) (cnt + 1) t
                else (acc, cnt)
    | none => (acc, cnt)

/-- Greedy digit run starting from 0. -/
def takeDigits (base : Nat) (l : List Nat) : Nat × Nat :=
  takeDigitsAux base 0 0 l

/-- Clamp to the `long` range of the 32-bit target (`strtol` saturation). -/
def clampLong (x : Int) : Int := max (-(2 ^ 31)) (min x (2 ^ 31 - 1))

/-- `strtol`-style parse of a whole token (`%li` then `buf[n] == '\0'`):
`none` when no conversion happened or trailing characters remain. -/
def strtol_li (buf : List Nat) : Option Int :=
  let (sgn, off, rest) :=
    match buf with
    | 45 :: t => ((-1 : Int), 1, t)
    | 43 :: t => ((1 : Int), 1, t)
    | t => ((1 : Int), 0, t)
  match rest with
  | 48 :: x :: t =>
    if (x = 120 ∨ x = 88) ∧ (digVal (t.getD 0 0)).isSome then
      let (v, n) := takeDigits 16 t
      if off + 2 + n = buf.length then some (clampLong (sgn * v)) else none
    else
      let (v, n) := takeDigits 8 (x :: t)
      if off + 1 + n = buf.length then some (clampLong (sgn * v)) else none
  | [48] =>
    if off + 1 = buf.length then some 0 else none
  | l =>
    let (v, n) := takeDigits 10 l
    if n = 0 then none
    else if off + n = buf.length then some (clampLong (sgn * v)) else none

/-- `zf_host_parse_num`: parse failure raises `ZF_ABORT_NOT_A_WORD`. -/
def parse_num (buf : List Nat) (s : ZS) : Res Int :=
  match strtol_li buf with
  | some v => .ok v s
  | none => .err (.abort .zNotAWord) s

/-- `handle_word` (`zforth.c` lines 737-787): resume a deferred
primitive, or look the token up and compile/execute it, or parse it as a
number. -/
def handle_word (buf : List Nat) (fuel : Nat) (s : ZS) : Res Unit :=
  if s.mode = 2 then run_loop (some buf) fuel { s with mode := 0 }
  else
    match find_word buf fuel s with
    | .err e s1 => .err e s1
    | .ok (some (w, c)) s1 =>
      let (d, _) := get_cell_var s1 w
      let flags := u32 d
      if getUv s1 3 ≠ 0 ∧ (getUv s1 4 ≠ 0 ∨ flags &&& 64 = 0) then
        let s2 :=
          if flags &&& 32 ≠ 0 then
            let (d2, _) := get_cell_var s1 c
            dict_add_op (u32 d2) s1
          else dict_add_op c s1
        .ok () (setUv 4 0 s2)
      else execute c fuel s1
    | .ok none s1 =>
      match parse_num buf s1 with
      | .err e s2 => .err e s2
      | .ok v s2 =>
        if getUv s2 3 ≠ 0 then .ok () (dict_add_lit v s2)
        else .ok () (zf_push v s2)

/-- The `isspace` of the C library for the ASCII range. -/
def isSpaceC (c : Nat) : Prop := c = 32 ∨ (9 ≤ c ∧ c ≤ 13)

instance (c : Nat) : Decidable (isSpaceC c) := by
  unfold isSpaceC
  infer_instance

/-- `handle_char` (`zforth.c` lines 794-817): feed one character; resume
a `PASS_CHAR` primitive, accumulate a token (capped at 31 characters), or
dispatch the pending token on whitespace/NUL. -/
def handle_char (c fuel : Nat) (s : ZS) : Res Unit :=
  if s.mode = 1 then run_loop (some [c]) fuel { s with mode := 0 }
  else if c ≠ 0 ∧ ¬ isSpaceC c then
    .ok () (if s.wbuf.length < 31 then { s with wbuf := s.wbuf ++ [c] } else s)
  else if s.wbuf ≠ [] then handle_word s.wbuf fuel { s with wbuf := [] }
  else .ok () s

/-- Source of the characters fed to `zf_eval`: either a live pointer into
the SRAM surface (`eval_cmd((char*)SRC_BUF)`, which observes writes the
program itself makes), or a constant string. -/
inductive Src where
  | mem (base : Nat)
  | str (l : List Nat)

/-- Read the source character at `pos`. -/
def srcByte (s : ZS) (src : Src) (pos : Nat) : Nat :=
  match src with
  | .mem b => fetchB s.sram (b + pos)
  | .str l => l.getD pos 0

/-- The `for (;;)` loop of `zf_eval` (`zforth.c` lines 882-888):
`handle_char(*buf)` then stop after the NUL character was handled. -/
def eval_loop (src : Src) : Nat → Nat → ZS → Res Unit
  | _, 0, s => .err .fuel s
  | pos, fuel + 1, s =>
    let c := srcByte s src pos % 256
    match handle_char c fuel s with
    | .err e s1 => .err e s1
    | .ok _ s1 => if c = 0 then .ok () s1 else eval_loop src (pos + 1) fuel s1

/-- The recovery arm of `zf_eval` (`zforth.c` lines 889-894), entered when
`zf_abort`'s `longjmp` lands back in `setjmp`: clear `COMPILING`, RSP and
DSP. -/
def abort_reset (s : ZS) : ZS :=
  { setUv 3 0 s with rsp := 0, dsp := 0 }

/-- `zf_eval` (`zforth.c` lines 878-895).  Result `none` means the fuel
ran out (the C loop is still running); `some r` is the returned
`zf_result`: `ZF_OK` on normal completion, otherwise the abort reason
after the recovery arm reset the stacks and compile flag. -/
def zf_eval (src : Src) (fuel : Nat) (s : ZS) : Option ZR × ZS :=
  match eval_loop src 0 fuel s with
  | .ok _ s1 => (some .zOk, s1)
  | .err .fuel s1 => (none, s1)
  | .err (.abort r) s1 => (some r, abort_reset s1)

/-! ## VM: initialisation and bootstrap -/

/-- `zf_init` (`zforth.c` lines 823-830). -/
def zf_init (trace : Nat) (s : ZS) : ZS :=
  setUv 3 0 { setUv 1 0 (setUv 2 trace (setUv 0 20 s)) with dsp := 0, rsp := 0 }

/-- Byte codes of a string literal. -/
def strB (t : String) : List Nat := t.toList.map (fun c => c.toNat)

/-- The packed primitive name table (`zforth.c` lines 144-151), in enum
order; index 20 is the tick primitive, whose one-character name is the
apostrophe (byte 39). -/
def primNames : List (List Nat) :=
  [strB ("exit"), strB ("lit"), strB ("<0"), strB (":"), strB ("_;"),
   strB ("+"), strB ("-"), strB ("*"), strB ("/"), strB ("%"),
   strB ("drop"), strB ("dup"), strB ("pickr"), strB ("_immediate"),
   strB ("@@"), strB ("!!"), strB ("swap"), strB ("rot"), strB ("jmp"),
   strB ("jmp0"), [39], strB ("_("), strB (">r"), strB ("r>"),
   strB ("="), strB ("sys"), strB ("pick"), strB (",,"), strB ("key"),
   strB ("lits"), strB ("##"), strB ("&"), strB ("|"), strB ("^"),
   strB ("<<"), strB (">>"), strB ("."), strB ("@D"), strB ("!D"),
   strB ("@T"), strB ("@V")]

/-- The user variable name table (`zforth.c` lines 181-182). -/
def uservarNames : List (List Nat) :=
  [strB ("h"), strB ("latest"), strB ("trace"), strB ("compiling"),
   strB ("_postpone")]

/-- `add_prim` (`zforth.c` lines 837-850): a leading underscore marks an
immediate primitive and is stripped; the body is `{op, EXIT}`. -/
def add_prim (name : List Nat) (op : Nat) (s : ZS) : ZS :=
  let imm := name.getD 0 0 = 95
  let nm := if imm then name.drop 1 else name
  let s1 := dict_add_op 0 (dict_add_op op (create nm 32 s))
  if imm then make_immediate s1 else s1

/-- `add_uservar` (`zforth.c` lines 852-856): body is `{LIT addr, EXIT}`. -/
def add_uservar (name : List Nat) (addr : Nat) (s : ZS) : ZS :=
  dict_add_op 0 (dict_add_lit ((addr : Nat) : Int) (create name 0 s))

/-- `zf_bootstrap` (`zforth.c` lines 858-872): add every primitive, then
the user variable accessor words. -/
def zf_bootstrap (s : ZS) : ZS :=
  let s1 := primNames.enum.foldl (fun st p => add_prim p.2 p.1 st) s
  uservarNames.enum.foldl (fun st p => add_uservar p.2 p.1 st) s1

/-! ## Chain protocol engine (`main.c` lines 166-370) -/

/-- The two serial links: `huart1` is the up-link (controller side),
`huart3` the down-link (next hop). -/
inductive Dir where
  | up
  | down
  deriving Repr, DecidableEq

/-- Per-node constants: the UID string built by `collect_bid`, the
end-of-RAM pointer `g_pfnVectors[0]`, and the three calibration words
read from the immutable addresses of `sramconf.h`. -/
structure Node where
  uid : List Nat
  sramEnd : Nat
  t110 : Nat
  t30 : Nat
  vcal : Nat

/-- Base of the SRAM region (`sramconf.h` line 12). -/
def SRAM_ADDRESS : Nat := 0x20000000

/-- `sram_size` (`main.c` lines 132-133): `g_pfnVectors[0] - SRAM_START`
in 32-bit unsigned arithmetic. -/
def sram_size (n : Node) : Nat := subw (n.sramEnd % 2 ^ 32) SRAM_ADDRESS

/-- `read_sram` (`sramplatform.c` lines 19-21): the offset parameter is a
`uint16_t`, truncating the 32-bit `options` at the call. -/
def read_sram (s : ZS) (offset : Nat) : List Nat :=
  fetchBytes s.sram (offset % 2 ^ 16 * DATA_SIZE) DATA_SIZE

/-- `write_sram` (`sramplatform.c` lines 26-28). -/
def write_sram (offset : Nat) (src : List Nat) (s : ZS) : ZS :=
  { s with sram := storeBytes s.sram (offset % 2 ^ 16 * DATA_SIZE) (padTo DATA_SIZE src) }

/-- `strcpy` into a fixed-size buffer: copy source bytes up to and
including the first NUL, leaving the rest of the destination unchanged
(`strcpy(packet.uid, UID)` in the PING/ALL handler). -/
def strcpyL : List Nat → List Nat → List Nat
  | dst, [] => dst
  | [], _ => []
  | _ :: dt, c :: st => if c = 0 then 0 :: dt else c :: strcpyL dt st

/-- One iteration of the main loop of `main.c` (lines 166-370), entered
once `PACKET_SIZE` bytes sit in `buffer`:

  * parse, increment `pic`;
  * zero the two checksum bytes of the receive buffer and recompute the
    CRC-16; on mismatch overwrite the packet with ERR / options 1 and
    send it up — note that the C code then falls through into the
    dispatch `switch` (there is no `continue` after line 190), where the
    `ERR` case resends the same packet upward a second time;
  * dispatch on the command byte, with `STR_MATCH` modelled from the
    spec as byte equality of the uid field with this node's UID.

The result collects the transmitted wire images in order together with
the successor state; `none` means the VM ran out of fuel inside a local
EXEC. -/
def stepMain (node : Node) (step : Nat → Nat → Nat) (fuel : Nat) (s : ZS)
    (buffer : List Nat) : Option (List (Dir × List Nat) × ZS) :=
  let pkt0 := parse_packet buffer
  let pkt := { pkt0 with pic := (pkt0.pic + 1) % 256 }
  let cks := crc16 step 0 (padTo (PACKET_SIZE - 2) buffer ++ [0, 0])
  let mismatch := cks ≠ pkt.checksum
  let pktE :=
    if mismatch then
      let e1 : Packet := { pkt with command := ERR, options := 1 }
      { e1 with checksum := make_crc step e1 }
    else pkt
  let pre : List (Dir × List Nat) :=
    if mismatch then [(.up, send_packet pktE)] else []
  if pktE.command = PING then
    if pktE.options = OWN then
      if pktE.uid = node.uid then
        let q1 := { pktE with options := sram_size node, command := ACK }
        some (pre ++ [(.up, send_packet { q1 with checksum := make_crc step q1 })], s)
      else some (pre ++ [(.down, send_packet pktE)], s)
    else if pktE.options = ALL then
      let q1 := { pktE with
        uid := strcpyL pktE.uid node.uid
        options := sram_size node
        command := ACK }
      let q1c := { q1 with checksum := make_crc step q1 }
      let q2 := { q1c with command := PING, options := ALL }
      some (pre ++ [(.up, send_packet q1c),
        (.down, send_packet { q2 with checksum := make_crc step q2 })], s)
    else some (pre, s)
  else if pktE.command = READ then
    if pktE.uid ≠ node.uid then
      some (pre ++ [(.down, send_packet { pktE with checksum := make_crc step pktE })], s)
    else
      let q1 := { pktE with command := ACK, data := read_sram s pktE.options }
      some (pre ++ [(.up, send_packet { q1 with checksum := make_crc step q1 })], s)
  else if pktE.command = WRITE then
    if pktE.uid ≠ node.uid then
      some (pre ++ [(.down, send_packet { pktE with checksum := make_crc step pktE })], s)
    else
      let s1 := write_sram pktE.options pktE.data s
      let q1 := { pktE with command := ACK }
      some (pre ++ [(.up, send_packet { q1 with checksum := make_crc step q1 })], s1)
  else if pktE.command = SENSORS then
    if pktE.uid ≠ node.uid then
      some (pre ++ [(.down, send_packet { pktE with checksum := make_crc step pktE })], s)
    else
      let temp := s.sens0 % 2 ^ 16
      let vdd := s.sens1 % 2 ^ 16
      let dataS :=
        if pktE.options = ALL then
          le2 (node.t110 % 2 ^ 16) ++ le2 (node.t30 % 2 ^ 16) ++ le2 temp ++
            le2 (node.vcal % 2 ^ 16) ++ le2 vdd ++ pktE.data.drop 10
        else if pktE.options = TEMP then
          le2 (node.t110 % 2 ^ 16) ++ le2 (node.t30 % 2 ^ 16) ++ le2 temp ++
            pktE.data.drop 6
        else if pktE.options = VDD then
          le2 (node.vcal % 2 ^ 16) ++ le2 vdd ++ pktE.data.drop 4
        else pktE.data
      let q1 := { pktE with command := ACK, data := dataS }
      some (pre ++ [(.up, send_packet { q1 with checksum := make_crc step q1 })], s)
  else if pktE.command = LOAD then
    if pktE.uid = node.uid then
      let s1 := { s with
        sram := storeBytes s.sram (SRC_BUF_BASE + DATA_SIZE * pktE.options % 2 ^ 32)
          (padTo DATA_SIZE pktE.data) }
      let q1 := { pktE with command := ACK }
      some (pre ++ [(.up, send_packet { q1 with checksum := make_crc step q1 })], s1)
    else
      some (pre ++ [(.down, send_packet { pktE with checksum := make_crc step pktE })], s)
  else if pktE.command = EXEC then
    if pktE.uid = node.uid then
      let s1 := if pktE.options = 1 then { s with write_pos := 0 } else s
      match zf_eval (.mem SRC_BUF_BASE) fuel s1 with
      | (none, _) => none
      | (some r, s2) =>
        let q1 := { pktE with options := zr_code r, command := ACK }
        some (pre ++ [(.up, send_packet { q1 with checksum := make_crc step q1 })], s2)
    else
      some (pre ++ [(.down, send_packet { pktE with checksum := make_crc step pktE })], s)
  else if pktE.command = RETR then
    if pktE.uid = node.uid then
      let q1 := { pktE with
        command := ACK
        data := fetchBytes s.sram
          (WRITE_BUF_BASE + 4 * (DATA_SIZE * pktE.options % 2 ^ 32)) DATA_SIZE }
      some (pre ++ [(.up, send_packet { q1 with checksum := make_crc step q1 })], s)
    else
      some (pre ++ [(.down, send_packet { pktE with checksum := make_crc step pktE })], s)
  else
    some (pre ++ [(.up, send_packet { pktE with checksum := make_crc step pktE })], s)

/-! ## Auxiliary definitions used by the theorem statements -/

/-- Truncation of a cell value to the declared width of a `zf_mem_size`
(the property side of the typed round-trip law): unsigned widths reduce
modulo `2^w`, signed widths take the balanced representative, and the
32-bit sizes (`VAR`, `CELL`, `U32`, `S32`) are exact. -/
def trunc_width (size : Int) (v : Int) : Int :=
  if size = 2 then v % 256
  else if size = 3 then v % 65536
  else if size = 5 then Int.bmod v 256
  else if size = 6 then Int.bmod v 65536
  else v

/-- The expected outcome of a local `EXEC` frame: the VM is invoked on
`SRC_BUF` in a state whose `write_pos` was reset when `options = 1`, and
the ACK carries the result code (property side of claim C6). -/
def exec_local_expected (step : Nat → Nat → Nat) (fuel : Nat)
    (s : ZS) (pkt : Packet) : Option (List (Dir × List Nat) × ZS) :=
  match zf_eval (.mem SRC_BUF_BASE) fuel { s with write_pos := 0 } with
  | (none, _) => none
  | (some r, s2) =>
    let q1 := { pkt with options := zr_code r, command := ACK }
    some ([(.up, send_packet { q1 with checksum := make_crc step q1 })], s2)

/-- A trivial CRC step function used for concrete packets: with it every
CRC-16 is 0, so a frame with zeroed checksum bytes verifies. -/
def step0 : Nat → Nat → Nat := fun _ _ => 0

/-- A concrete node for the closed theorems: all-zero UID, 8 KiB of RAM. -/
def node0 : Node :=
  ⟨List.replicate 25 0, 0x20002000, 0, 0, 0⟩

/-- A received frame whose stored checksum (0xFFFF) cannot match the
recomputed CRC under `step0`: the concrete failing input for the
checksum-mismatch path. -/
def badFrame : List Nat :=
  List.replicate 62 0 ++ [255, 255]

/-- The ERR/1 packet that the mismatch path builds from `badFrame`. -/
def errPkt : Packet :=
  { command := ERR
    pic := 1
    options := 1
    uid := List.replicate 25 0
    data := List.replicate 31 0
    checksum := 0 }

/-- A state whose WRITE_BUF area distinguishes byte offset `DATA_SIZE`
(claimed by C2 for `options = 1`) from byte offset `4 * DATA_SIZE`
(what the code reads through the `int32_t*`): byte 1829 = 7 versus byte
1922 = 9. -/
def retrState : ZS :=
  { zs0 with
    sram := storeB (storeB [] (WRITE_BUF_BASE + DATA_SIZE) 7)
      (WRITE_BUF_BASE + 4 * DATA_SIZE) 9 }

/-- A RETR frame addressed to `node0` with `options = 1` and zeroed
checksum (valid under `step0`). -/
def retrFrame : List Nat :=
  [RETR, 0, 1, 0, 0, 0] ++ List.replicate 58 0

/-- The ACK that `stepMain` produces for `retrFrame` in `retrState`: its
data is read from byte offset `4 * DATA_SIZE`, not `DATA_SIZE`. -/
def retrAck : Packet :=
  { command := ACK, pic := 1, options := 1, uid := List.replicate 25 0,
    data := 9 :: List.replicate 30 0, checksum := 0 }

/-- A state with only the division primitive in the dictionary: enough to
demonstrate the `DIVISION_BY_ZERO` abort and the recovery of `zf_eval`. -/
def divS : ZS := add_prim (strB ("/")) 8 (zf_init 0 zs0)

/-- The Res value of evaluating the unknown word `q` in the empty VM: a
`NOT_A_WORD` abort, used to witness the abort-reset law. -/
def evalqRes : Res Unit := eval_loop (.str (strB ("q"))) 0 50 zs0

/-- State component of `evalqRes`. -/
def evalqS : ZS :=
  match evalqRes with
  | .ok _ s => s
  | .err _ s => s

/-- A data stack holding value 9, address 2 and size selector 7 (top),
the operand layout of the `!!` primitive. -/
def pokeS : ZS := zf_push 7 (zf_push 2 (zf_push 9 zs0))

/-- The abort reasons the compiled VM can actually raise: with
`ZF_ENABLE_BOUNDARY_CHECKS = 0` the only `zf_abort` call sites left in
the code are the internal-error defaults, the number parser, the typed
size check and the division guards.  A result satisfies this predicate
when it is not an abort with any other reason. -/
def resOkAbort : Res α → Prop
  | .err (.abort z) _ => z = .zInternalError ∨ z = .zNotAWord ∨
      z = .zInvalidSize ∨ z = .zDivisionByZero
  | _ => True

/-- A concrete packet exercising every field of the codec round-trip. -/
def pkt7 : Packet :=
  { command := 3
    pic := 7
    options := 305419896
    uid := List.replicate 25 65
    data := List.replicate 31 9
    checksum := 513 }

/-- The ACK a node sends for a local RETR frame parsed as `p`: its data
is read from byte offset `4 * (DATA_SIZE * options mod 2^32)` after the
start of WRITE_BUF, because `WRITE_BUF` is an `int32_t*` and the pointer
offset counts 32-bit cells. -/
def retr_ack_of (step : Nat → Nat → Nat) (s : ZS) (p : Packet) : Packet :=
  let pk := { p with pic := (p.pic + 1) % 256 }
  let q1 := { pk with
    command := ACK
    data := fetchBytes s.sram
      (WRITE_BUF_BASE + 4 * (DATA_SIZE * p.options % 2 ^ 32)) DATA_SIZE }
  { q1 with checksum := make_crc step q1 }

/-- The packet a node forwards on the down-link for a non-local frame:
pic incremented, checksum refreshed, everything else untouched. -/
def fwd_of (step : Nat → Nat → Nat) (p : Packet) : Packet :=
  let pk := { p with pic := (p.pic + 1) % 256 }
  { pk with checksum := make_crc step pk }

/-- The up-link ACK of the PING/ALL handler: own UID copied over the
received one, options = SRAM size. -/
def ping_ack_of (node : Node) (step : Nat → Nat → Nat) (p : Packet) : Packet :=
  let pk := { p with pic := (p.pic + 1) % 256 }
  let q1 := { pk with
    uid := strcpyL pk.uid node.uid
    options := sram_size node
    command := ACK }
  { q1 with checksum := make_crc step q1 }

/-- The down-link broadcast of the PING/ALL handler: the ACK packet with
command and options switched back to PING/ALL and a fresh checksum. -/
def ping_fwd_of (node : Node) (step : Nat → Nat → Nat) (p : Packet) : Packet :=
  let q2 := { ping_ack_of node step p with command := PING, options := ALL }
  { q2 with checksum := make_crc step q2 }

/-- A READ frame for block 2 whose uid (starting with byte 65) differs
from `node0`'s all-zero UID; checksum valid under `step0`. -/
def readFrame : List Nat :=
  [READ, 0, 2, 0, 0, 0] ++ [65] ++ List.replicate 57 0

/-- A node whose UID has the shape `collect_bid` produces: 24 non-NUL
characters followed by the terminating NUL. -/
def nodeH : Node := ⟨List.replicate 24 65 ++ [0], 0x20002000, 1, 2, 3⟩

/-- A PING/ALL broadcast frame (uid all zero), checksum valid under
`step0`. -/
def pingFrame : List Nat :=
  [PING, 0, 1, 0, 0, 0] ++ List.replicate 58 0

/-- An EXEC frame with options 1 addressed to `node0`, checksum valid
under `step0`. -/
def execFrame : List Nat :=
  [EXEC, 0, 1, 0, 0, 0] ++ List.replicate 58 0

/-! ## Auxiliary lemmas on the memory model and integer wrapping -/

theorem fetchB_storeB (m : List (Nat × Nat)) (a v x : Nat) :
    fetchB (storeB m a v) x = if a = x then v % 256 else fetchB m x := by
  simp [storeB, fetchB]

theorem fetch_storeBytesW_notin (bs : List Nat) (m : List (Nat × Nat))
    (a x : Nat) (h : ∀ j, j < bs.length → (a + j) % 2 ^ 32 ≠ x) :
    fetchB (storeBytesW m a bs) x = fetchB m x := by
  induction bs generalizing m a with
  | nil => rfl
  | cons b t ih =>
    rw [storeBytesW, ih]
    · rw [fetchB_storeB, if_neg]
      have h0 := h 0 (by simp)
      simpa using h0
    · intro j hj
      have := h (j + 1) (by simpa using Nat.succ_lt_succ hj)
      have e : a + 1 + j = a + (j + 1) := by omega
      rw [e]
      exact this

theorem fetch_storeBytesW_at (bs : List Nat) (m : List (Nat × Nat))
    (a i : Nat) (hi : i < bs.length) (hlen : bs.length ≤ 2 ^ 32) :
    fetchB (storeBytesW m a bs) ((a + i) % 2 ^ 32) = bs.getD i 0 % 256 := by
  induction bs generalizing m a i with
  | nil => simp at hi
  | cons b t ih =>
    cases i with
    | zero =>
      rw [storeBytesW, fetch_storeBytesW_notin]
      · rw [fetchB_storeB, if_pos (by omega)]
        simp
      · intro j hj
        simp only [List.length_cons] at hlen
        omega
    | succ i2 =>
      rw [storeBytesW]
      have e : a + (i2 + 1) = a + 1 + i2 := by omega
      rw [e, ih]
      · simp
      · simpa using Nat.lt_of_succ_lt_succ hi
      · simp only [List.length_cons] at hlen
        omega

theorem fetch_storeBytes_notin (bs : List Nat) (m : List (Nat × Nat))
    (a x : Nat) (h : ∀ j, j < bs.length → a + j ≠ x) :
    fetchB (storeBytes m a bs) x = fetchB m x := by
  induction bs generalizing m a with
  | nil => rfl
  | cons b t ih =>
    rw [storeBytes, ih]
    · rw [fetchB_storeB, if_neg]
      have h0 := h 0 (by simp)
      simpa using h0
    · intro j hj
      have := h (j + 1) (by simpa using Nat.succ_lt_succ hj)
      have e : a + 1 + j = a + (j + 1) := by omega
      rw [e]
      exact this

theorem fetch_storeBytes_at (bs : List Nat) (m : List (Nat × Nat))
    (a i : Nat) (hi : i < bs.length) :
    fetchB (storeBytes m a bs) (a + i) = bs.getD i 0 % 256 := by
  induction bs generalizing m a i with
  | nil => simp at hi
  | cons b t ih =>
    cases i with
    | zero =>
      rw [storeBytes, fetch_storeBytes_notin]
      · rw [fetchB_storeB, if_pos (by omega)]
        simp
      · intro j hj
        omega
    | succ i2 =>
      rw [storeBytes]
      have e : a + (i2 + 1) = a + 1 + i2 := by omega
      rw [e, ih]
      · simp
      · simpa using Nat.lt_of_succ_lt_succ hi

theorem from_le_le4 (n : Nat) : from_le (le4 n) = n % 2 ^ 32 := by
  simp only [le4, from_le]
  omega

theorem fetch32_store32 (m : List (Nat × Nat)) (a v : Nat) :
    fetch32 (store32 m a v) a = v % 2 ^ 32 := by
  have hr : List.range 4 = [0, 1, 2, 3] := rfl
  rw [fetch32, fetchBytes, hr]
  simp only [List.map]
  rw [store32]
  have g : ∀ i, i < 4 → fetchB (storeBytes m a (le4 v)) (a + i) = (le4 v).getD i 0 % 256 := by
    intro i hi
    exact fetch_storeBytes_at (le4 v) m a i (by simp [le4]; omega)
  have g0 := g 0 (by omega)
  have g1 := g 1 (by omega)
  have g2 := g 2 (by omega)
  have g3 := g 3 (by omega)
  rw [g0, g1, g2, g3]
  have e0 : (le4 v).getD 0 0 = v % 256 := rfl
  have e1 : (le4 v).getD 1 0 = v / 256 % 256 := rfl
  have e2 : (le4 v).getD 2 0 = v / 65536 % 256 := rfl
  have e3 : (le4 v).getD 3 0 = v / 16777216 % 256 := rfl
  rw [e0, e1, e2, e3]
  simp only [from_le]
  omega

theorem getUv_setUv (i v : Nat) (s : ZS) :
    getUv (setUv i v s) i = v % 2 ^ 32 := by
  show fetch32 (store32 s.dict (4 * i) (v % 2 ^ 32)) (4 * i) = v % 2 ^ 32
  rw [fetch32_store32]
  omega

theorem u32_lt (v : Int) : u32 v < 2 ^ 32 := by
  simp only [u32]
  omega

theorem i32n_u32 (v : Int) (h1 : -(2 ^ 31) ≤ v) (h2 : v < 2 ^ 31) :
    i32n (u32 v) = v := by
  simp only [u32, i32n]
  split <;> omega

theorem padTo_eq_self (n : Nat) (l : List Nat) (h : l.length = n) :
    padTo n l = l := by
  subst h
  simp [padTo]

/-! ## Claim theorems -/

/-- Claim C1 (code bug): on a received frame whose recomputed CRC-16
differs from its checksum field, the node does not send exactly one ERR
packet — the mismatch branch of `main.c` (lines 184-190) has no
`continue`, so control falls through into the dispatch `switch` where
the `ERR` case (lines 363-368) resends the same ERR/1 packet a second
time.  Evaluated at the concrete failing frame `badFrame`: two identical
up-link transmissions, no down-link forward, no other side effect. -/
theorem crc_mismatch_double_err :
    stepMain node0 step0 10 zs0 badFrame =
      some ([(Dir.up, send_packet errPkt), (Dir.up, send_packet errPkt)], zs0) := by
  decide

/-- Claim C7: parsing the byte sequence emitted by `send_packet` returns
a packet equal to the original in the fields command, pic, options, uid
and data, for every packet whose fields fit their C widths. -/
theorem packet_codec_roundtrip (p : Packet) (hc : p.command < 256)
    (hp : p.pic < 256) (ho : p.options < 2 ^ 32) (hu : p.uid.length = 25)
    (hd : p.data.length = 31) :
    (parse_packet (send_packet p)).command = p.command ∧
    (parse_packet (send_packet p)).pic = p.pic ∧
    (parse_packet (send_packet p)).options = p.options ∧
    (parse_packet (send_packet p)).uid = p.uid ∧
    (parse_packet (send_packet p)).data = p.data := by
  have hsend : send_packet p =
      p.command % 256 :: p.pic % 256 :: p.options % 256 ::
        p.options / 256 % 256 :: p.options / 65536 % 256 ::
        p.options / 16777216 % 256 ::
        (p.uid ++ (p.data ++ le2 p.checksum)) := by
    simp [send_packet, le4, UID_SIZE, DATA_SIZE, padTo_eq_self 25 p.uid hu,
      padTo_eq_self 31 p.data hd]
  rw [hsend]
  have hdrop6 : ∀ (l : List Nat) (a b c d e f : Nat),
      (a :: b :: c :: d :: e :: f :: l).drop 6 = l := by
    intro l a b c d e f
    rfl
  refine ⟨?_, ?_, ?_, ?_, ?_⟩
  · show p.command % 256 = p.command
    omega
  · show p.pic % 256 = p.pic
    omega
  · show p.options % 256 + 256 * (p.options / 256 % 256) +
      65536 * (p.options / 65536 % 256) +
      16777216 * (p.options / 16777216 % 256) = p.options
    omega
  · show ((p.command % 256 :: p.pic % 256 :: p.options % 256 ::
      p.options / 256 % 256 :: p.options / 65536 % 256 ::
      p.options / 16777216 % 256 ::
      (p.uid ++ (p.data ++ le2 p.checksum))).drop 6).take UID_SIZE = p.uid
    rw [hdrop6]
    rw [List.take_append_of_le_length (by rw [hu]; rfl)]
    rw [show UID_SIZE = p.uid.length from hu.symm]
    exact List.take_length p.uid
  · show ((p.command % 256 :: p.pic % 256 :: p.options % 256 ::
      p.options / 256 % 256 :: p.options / 65536 % 256 ::
      p.options / 16777216 % 256 ::
      (p.uid ++ (p.data ++ le2 p.checksum))).drop 31).take DATA_SIZE = p.data
    have e31 : (31 : Nat) = 6 + 25 := by omega
    rw [e31, ← List.drop_drop, hdrop6]
    rw [show (25 : Nat) = p.uid.length from hu.symm, List.drop_left]
    rw [List.take_append_of_le_length (by rw [hd]; rfl)]
    rw [show DATA_SIZE = p.data.length from hd.symm]
    exact List.take_length p.data

/-- Witness for C7 at the concrete packet `pkt7`. -/
theorem packet_codec_roundtrip_witness :
    pkt7.command < 256 ∧ pkt7.pic < 256 ∧ pkt7.options < 2 ^ 32 ∧
      pkt7.uid.length = 25 ∧ pkt7.data.length = 31 ∧
      ((parse_packet (send_packet pkt7)).command = pkt7.command ∧
       (parse_packet (send_packet pkt7)).pic = pkt7.pic ∧
       (parse_packet (send_packet pkt7)).options = pkt7.options ∧
       (parse_packet (send_packet pkt7)).uid = pkt7.uid ∧
       (parse_packet (send_packet pkt7)).data = pkt7.data) :=
  ⟨by decide, by decide, by decide, by decide, by decide,
    packet_codec_roundtrip pkt7 (by decide) (by decide) (by decide) (by decide)
      (by decide)⟩

/-- Claim C10: for an address below `ZF_USERVAR_COUNT = 5` the VM memory
primitives bypass the dictionary cell decoder: `peek` returns the user
variable with reported length 1 whatever size was requested, and the
`!!` (POKE) primitive stores the popped value into the user variable,
ignoring the popped size selector entirely (the result does not depend
on it). -/
theorem uservar_direct_access :
    (∀ (s : ZS) (a : Nat) (len : Int), a < 5 →
      peek a len s = .ok (i32n (getUv s a), 1) s) ∧
    (∀ (inp : Option (List Nat)) (fuel : Nat) (s : ZS),
      u32 ((zf_pop (zf_pop s).2).1) < 5 →
      do_prim 15 inp fuel s = .ok () (setUv (u32 ((zf_pop (zf_pop s).2).1))
        (u32 ((zf_pop (zf_pop (zf_pop s).2).2).1))
        ((zf_pop (zf_pop (zf_pop s).2).2).2))) := by
  constructor
  · intro s a len ha
    simp [peek, ha]
  · intro inp fuel s h
    simp only [do_prim]
    rw [if_pos h]

/-- Witness for C10: user variable 2 of the empty state through `peek`
and a POKE with size selector 7 on a stack holding value 9, address 2. -/
theorem uservar_direct_access_witness :
    ((2 : Nat) < 5 ∧ peek 2 7 zs0 = .ok (i32n (getUv zs0 2), 1) zs0) ∧
    (u32 ((zf_pop (zf_pop pokeS).2).1) < 5 ∧
      do_prim 15 none 0 pokeS = .ok ()
        (setUv (u32 ((zf_pop (zf_pop pokeS).2).1))
          (u32 ((zf_pop (zf_pop (zf_pop pokeS).2).2).1))
          ((zf_pop (zf_pop (zf_pop pokeS).2).2).2))) :=
  ⟨⟨by decide, uservar_direct_access.1 zs0 2 7 (by decide)⟩,
   ⟨by decide, uservar_direct_access.2 none 0 pokeS (by decide)⟩⟩

/-- Counterexample to claim C2 as stated: for the RETR frame with
`options = 1` the ACK's data is not the `DATA_SIZE` bytes at byte offset
`options * DATA_SIZE` from the start of WRITE_BUF — `WRITE_BUF` is an
`int32_t*` (`main.c` line 79), so `WRITE_BUF + DATA_SIZE * options`
advances in 32-bit cells, i.e. `4 * DATA_SIZE * options` bytes. -/
theorem retr_byte_offset_counterexample :
    stepMain node0 step0 10 retrState retrFrame =
      some ([(Dir.up, send_packet retrAck)], retrState) ∧
    retrAck.data ≠
      fetchBytes retrState.sram (WRITE_BUF_BASE + DATA_SIZE * 1) DATA_SIZE := by
  constructor
  · decide
  · decide

/-- Claim C2 as amended: a local RETR frame is answered by an ACK whose
data field holds the `DATA_SIZE` bytes at byte offset
`4 * (DATA_SIZE * options mod 2^32)` from the start of WRITE_BUF
(`WRITE_BUF` addressed in 32-bit cells), and nothing else changes. -/
theorem retr_reads_cell_offset (node : Node) (step : Nat → Nat → Nat)
    (fuel : Nat) (s : ZS) (buffer : List Nat)
    (hcmd : (parse_packet buffer).command = RETR)
    (huid : (parse_packet buffer).uid = node.uid)
    (hcks : crc16 step 0 (padTo (PACKET_SIZE - 2) buffer ++ [0, 0]) =
      (parse_packet buffer).checksum) :
    stepMain node step fuel s buffer =
      some ([(Dir.up, send_packet (retr_ack_of step s (parse_packet buffer)))], s) := by
  unfold stepMain
  simp only [hcmd, huid, hcks, retr_ack_of, RETR, PING, READ, WRITE, SENSORS,
    LOAD, EXEC, ACK, ERR, OWN, ALL]
  norm_num

/-- Witness for the amended C2 at the concrete `retrFrame`. -/
theorem retr_reads_cell_offset_witness :
    ((parse_packet retrFrame).command = RETR ∧
     (parse_packet retrFrame).uid = node0.uid ∧
     crc16 step0 0 (padTo (PACKET_SIZE - 2) retrFrame ++ [0, 0]) =
       (parse_packet retrFrame).checksum) ∧
    stepMain node0 step0 10 retrState retrFrame =
      some ([(Dir.up, send_packet (retr_ack_of step0 retrState
        (parse_packet retrFrame)))], retrState) :=
  ⟨⟨by decide, by decide, by decide⟩,
    retr_reads_cell_offset node0 step0 10 retrState retrFrame (by decide)
      (by decide) (by decide)⟩

/-- Claim C3: a frame with command in READ..RETR whose uid is not this
node's UID produces exactly one transmission, on the down-link, and the
whole node state — SRAM surface (hence SRC_BUF and WRITE_BUF),
`write_pos`, dictionary, stacks and all other VM state — is returned
unchanged: no local read, write, sensor fill or VM evaluation happens. -/
theorem routing_no_local_effect (node : Node) (step : Nat → Nat → Nat)
    (fuel : Nat) (s : ZS) (buffer : List Nat)
    (hcmd : (parse_packet buffer).command = READ ∨
      (parse_packet buffer).command = WRITE ∨
      (parse_packet buffer).command = SENSORS ∨
      (parse_packet buffer).command = LOAD ∨
      (parse_packet buffer).command = EXEC ∨
      (parse_packet buffer).command = RETR)
    (huid : (parse_packet buffer).uid ≠ node.uid)
    (hcks : crc16 step 0 (padTo (PACKET_SIZE - 2) buffer ++ [0, 0]) =
      (parse_packet buffer).checksum) :
    stepMain node step fuel s buffer =
      some ([(Dir.down, send_packet (fwd_of step (parse_packet buffer)))], s) := by
  rcases hcmd with h | h | h | h | h | h <;>
  · unfold stepMain
    simp only [h, huid, hcks, fwd_of, PING, READ, WRITE, SENSORS, LOAD, EXEC,
      RETR, ne_eq]
    norm_num
    exact fun hcontra => absurd hcontra huid

/-- Witness for C3 at the concrete `readFrame` against `node0`. -/
theorem routing_no_local_effect_witness :
    (((parse_packet readFrame).command = READ ∨
      (parse_packet readFrame).command = WRITE ∨
      (parse_packet readFrame).command = SENSORS ∨
      (parse_packet readFrame).command = LOAD ∨
      (parse_packet readFrame).command = EXEC ∨
      (parse_packet readFrame).command = RETR) ∧
     (parse_packet readFrame).uid ≠ node0.uid ∧
     crc16 step0 0 (padTo (PACKET_SIZE - 2) readFrame ++ [0, 0]) =
       (parse_packet readFrame).checksum) ∧
    stepMain node0 step0 10 zs0 readFrame =
      some ([(Dir.down, send_packet (fwd_of step0 (parse_packet readFrame)))], zs0) :=
  ⟨⟨by decide, by decide, by decide⟩,
    routing_no_local_effect node0 step0 10 zs0 readFrame (by decide) (by decide)
      (by decide)⟩

/-- Helper: copying a properly NUL-terminated string into a strictly
longer buffer yields the string followed by the buffer's tail. -/
theorem strcpyL_full (pre rest dst : List Nat) (hpre : ∀ x ∈ pre, x ≠ 0)
    (hlen : pre.length < dst.length) :
    strcpyL dst (pre ++ 0 :: rest) = pre ++ 0 :: dst.drop (pre.length + 1) := by
  induction pre generalizing dst with
  | nil =>
    cases dst with
    | nil => simp at hlen
    | cons d dt => simp [strcpyL]
  | cons a t ih =>
    cases dst with
    | nil => simp at hlen
    | cons d dt =>
      have ha : a ≠ 0 := hpre a (by simp)
      have hlen2 : t.length < dt.length := by
        simp only [List.length_cons] at hlen
        omega
      have hpre2 : ∀ x ∈ t, x ≠ 0 := fun x hx => hpre x (by simp [hx])
      show strcpyL (d :: dt) (a :: (t ++ 0 :: rest)) = _
      rw [strcpyL, if_neg ha, ih dt hpre2 hlen2]
      simp [List.drop_succ_cons]

/-- Claim C8: a PING/ALL frame (whatever its uid) makes the node first
send up an ACK carrying its own UID and its SRAM size (the reset-vector
end-of-RAM pointer minus the SRAM base, `sram_size`), and then send a
PING/ALL packet on the down-link. -/
theorem ping_all_broadcast (node : Node) (step : Nat → Nat → Nat)
    (fuel : Nat) (s : ZS) (buffer : List Nat) (pre : List Nat)
    (hcmd : (parse_packet buffer).command = PING)
    (hopt : (parse_packet buffer).options = ALL)
    (hcks : crc16 step 0 (padTo (PACKET_SIZE - 2) buffer ++ [0, 0]) =
      (parse_packet buffer).checksum)
    (hbuf : buffer.length = 64)
    (hu : node.uid = pre ++ [0]) (hlen : pre.length = 24)
    (hpre : ∀ x ∈ pre, x ≠ 0) :
    stepMain node step fuel s buffer =
      some ([(Dir.up, send_packet (ping_ack_of node step (parse_packet buffer))),
        (Dir.down, send_packet (ping_fwd_of node step (parse_packet buffer)))], s) ∧
    (ping_ack_of node step (parse_packet buffer)).uid = node.uid ∧
    (ping_ack_of node step (parse_packet buffer)).command = ACK ∧
    (ping_ack_of node step (parse_packet buffer)).options = sram_size node ∧
    (ping_fwd_of node step (parse_packet buffer)).command = PING ∧
    (ping_fwd_of node step (parse_packet buffer)).options = ALL := by
  have hul : (parse_packet buffer).uid.length = 25 := by
    simp [parse_packet, UID_SIZE, hbuf]
  have hstr : strcpyL (parse_packet buffer).uid node.uid = node.uid := by
    rw [hu]
    have e : pre ++ [0] = pre ++ 0 :: ([] : List Nat) := rfl
    rw [e, strcpyL_full pre [] _ hpre (by omega)]
    have hdrop : (parse_packet buffer).uid.drop (pre.length + 1) = [] := by
      apply List.drop_eq_nil_of_le
      omega
    rw [hdrop]
  refine ⟨?_, ?_, rfl, rfl, rfl, rfl⟩
  · unfold stepMain
    simp only [hcmd, hopt, hcks, ping_ack_of, ping_fwd_of, PING, OWN, ALL, ACK]
    norm_num
  · simp [ping_ack_of, hstr]

/-- Witness for C8 at the concrete `pingFrame` against `nodeH`. -/
theorem ping_all_broadcast_witness :
    ((parse_packet pingFrame).command = PING ∧
     (parse_packet pingFrame).options = ALL ∧
     crc16 step0 0 (padTo (PACKET_SIZE - 2) pingFrame ++ [0, 0]) =
       (parse_packet pingFrame).checksum ∧
     pingFrame.length = 64 ∧ nodeH.uid = List.replicate 24 65 ++ [0] ∧
     (List.replicate 24 65).length = 24 ∧
     (∀ x ∈ List.replicate 24 65, x ≠ 0)) ∧
    (stepMain nodeH step0 10 zs0 pingFrame =
      some ([(Dir.up, send_packet (ping_ack_of nodeH step0 (parse_packet pingFrame))),
        (Dir.down, send_packet (ping_fwd_of nodeH step0 (parse_packet pingFrame)))], zs0) ∧
     (ping_ack_of nodeH step0 (parse_packet pingFrame)).uid = nodeH.uid ∧
     (ping_ack_of nodeH step0 (parse_packet pingFrame)).command = ACK ∧
     (ping_ack_of nodeH step0 (parse_packet pingFrame)).options = sram_size nodeH ∧
     (ping_fwd_of nodeH step0 (parse_packet pingFrame)).command = PING ∧
     (ping_fwd_of nodeH step0 (parse_packet pingFrame)).options = ALL) :=
  ⟨⟨by decide, by decide, by decide, by decide, by decide, by decide, by decide⟩,
    ping_all_broadcast nodeH step0 10 zs0 pingFrame (List.replicate 24 65)
      (by decide) (by decide) (by decide) (by decide) (by decide) (by decide)
      (by decide)⟩

/-- Helper for C6: effect of the `.` (EMIT) primitive — one cell popped,
its 32-bit image stored at cell index `write_pos` of WRITE_BUF (byte
offset `4 * write_pos`), `write_pos` advanced by one and wrapped to 0 on
reaching `DATA_SIZE`; dictionary and return stack untouched. -/
theorem emit_prim_effect (inp : Option (List Nat)) (fuel : Nat) (s : ZS) :
    ∃ s1, do_prim 36 inp fuel s = .ok () s1 ∧
      fetch32 s1.sram (WRITE_BUF_BASE + 4 * s.write_pos) = u32 (zf_pop s).1 ∧
      s1.write_pos = (if (s.write_pos + 1) % 2 ^ 32 = DATA_SIZE then 0
        else (s.write_pos + 1) % 2 ^ 32) ∧
      s1.dsp = subw s.dsp 1 ∧ s1.dict = s.dict ∧ s1.rstack = s.rstack := by
  refine ⟨_, rfl, ?_, rfl, rfl, rfl, rfl⟩
  show fetch32 (store32 s.sram (WRITE_BUF_BASE + 4 * s.write_pos)
    (u32 (zf_pop s).1)) (WRITE_BUF_BASE + 4 * s.write_pos) = u32 (zf_pop s).1
  rw [fetch32_store32]
  exact Nat.mod_eq_of_lt (u32_lt _)

/-- Helper for C6: a local EXEC frame with options 1 equals the
specification-side `exec_local_expected`, whose VM invocation starts
from `write_pos = 0`. -/
theorem exec_local_reset (node : Node) (step : Nat → Nat → Nat)
    (fuel : Nat) (s : ZS) (buffer : List Nat)
    (hcmd : (parse_packet buffer).command = EXEC)
    (huid : (parse_packet buffer).uid = node.uid)
    (hopt : (parse_packet buffer).options = 1)
    (hcks : crc16 step 0 (padTo (PACKET_SIZE - 2) buffer ++ [0, 0]) =
      (parse_packet buffer).checksum) :
    stepMain node step fuel s buffer =
      exec_local_expected step fuel s
        { parse_packet buffer with
          pic := ((parse_packet buffer).pic + 1) % 256 } := by
  unfold stepMain exec_local_expected
  simp only [hcmd, huid, hopt, hcks, EXEC, PING, READ, WRITE, SENSORS, LOAD,
    ACK, ne_eq]
  norm_num

/-- Claim C6: the EMIT primitive pops one cell, stores it at
`WRITE_BUF[write_pos]` and advances `write_pos`, wrapping to 0 at
`DATA_SIZE`; and a local EXEC frame with options 1 resets `write_pos` to
0 before invoking the VM on SRC_BUF. -/
theorem emit_and_exec_reset :
    (∀ (inp : Option (List Nat)) (fuel : Nat) (s : ZS),
      ∃ s1, do_prim 36 inp fuel s = .ok () s1 ∧
        fetch32 s1.sram (WRITE_BUF_BASE + 4 * s.write_pos) = u32 (zf_pop s).1 ∧
        s1.write_pos = (if (s.write_pos + 1) % 2 ^ 32 = DATA_SIZE then 0
          else (s.write_pos + 1) % 2 ^ 32) ∧
        s1.dsp = subw s.dsp 1 ∧ s1.dict = s.dict ∧ s1.rstack = s.rstack) ∧
    (∀ (node : Node) (step : Nat → Nat → Nat) (fuel : Nat) (s : ZS)
      (buffer : List Nat),
      (parse_packet buffer).command = EXEC →
      (parse_packet buffer).uid = node.uid →
      (parse_packet buffer).options = 1 →
      crc16 step 0 (padTo (PACKET_SIZE - 2) buffer ++ [0, 0]) =
        (parse_packet buffer).checksum →
      stepMain node step fuel s buffer =
        exec_local_expected step fuel s
          { parse_packet buffer with
            pic := ((parse_packet buffer).pic + 1) % 256 }) :=
  ⟨emit_prim_effect,
   fun node step fuel s buffer h1 h2 h3 h4 =>
     exec_local_reset node step fuel s buffer h1 h2 h3 h4⟩

/-- Helper: first byte read back after a wrapped multi-byte store. -/
theorem t0_read (m : List (Nat × Nat)) (addr : Nat) (bs : List Nat)
    (h0 : 0 < bs.length) (h5 : bs.length ≤ 2 ^ 32) :
    fetchB (storeBytesW m addr bs) (addr % 2 ^ 32) = bs.getD 0 0 % 256 := by
  have h := fetch_storeBytesW_at bs m addr 0 h0 h5
  rwa [Nat.add_zero] at h

/-- Helper: second byte read back after a wrapped multi-byte store. -/
theorem t1_read (m : List (Nat × Nat)) (addr : Nat) (bs : List Nat)
    (h1 : 1 < bs.length) (h5 : bs.length ≤ 2 ^ 32) :
    fetchB (storeBytesW m addr bs) ((addr + 1) % 2 ^ 32) = bs.getD 1 0 % 256 :=
  fetch_storeBytesW_at bs m addr 1 h1 h5

/-- Helper: a stored 4-byte little-endian image reads back as the value
mod `2^32` (wrapped-address variant). -/
theorem get32_after_store (m : List (Nat × Nat)) (a n : Nat) :
    from_le (fetchBytesW (storeBytesW m a (le4 n)) a 4) = n % 2 ^ 32 := by
  have hr : List.range 4 = [0, 1, 2, 3] := rfl
  rw [fetchBytesW, hr]
  simp only [List.map]
  have g : ∀ i, i < 4 → fetchB (storeBytesW m a (le4 n)) ((a + i) % 2 ^ 32) =
      (le4 n).getD i 0 % 256 := by
    intro i hi
    exact fetch_storeBytesW_at (le4 n) m a i (by simpa [le4] using hi)
      (by norm_num [le4])
  have g0 := g 0 (by omega)
  have g1 := g 1 (by omega)
  have g2 := g 2 (by omega)
  have g3 := g 3 (by omega)
  rw [g0, g1, g2, g3]
  have e0 : (le4 n).getD 0 0 = n % 256 := rfl
  have e1 : (le4 n).getD 1 0 = n / 256 % 256 := rfl
  have e2 : (le4 n).getD 2 0 = n / 65536 % 256 := rfl
  have e3 : (le4 n).getD 3 0 = n / 16777216 % 256 := rfl
  rw [e0, e1, e2, e3]
  simp only [from_le]
  omega

/-- Helper: the integer value of the unsigned reinterpretation. -/
theorem u32_cast (v : Int) : ((u32 v : Nat) : Int) = v % 2 ^ 32 := by
  simp only [u32]
  omega

/-- Witness for C6: the EXEC part at the concrete `execFrame` from a
state with `write_pos = 5`. -/
theorem emit_and_exec_reset_witness :
    ((parse_packet execFrame).command = EXEC ∧
     (parse_packet execFrame).uid = node0.uid ∧
     (parse_packet execFrame).options = 1 ∧
     crc16 step0 0 (padTo (PACKET_SIZE - 2) execFrame ++ [0, 0]) =
       (parse_packet execFrame).checksum) ∧
    stepMain node0 step0 50 { zs0 with write_pos := 5 } execFrame =
      exec_local_expected step0 50 { zs0 with write_pos := 5 }
        { parse_packet execFrame with
          pic := ((parse_packet execFrame).pic + 1) % 256 } :=
  ⟨⟨by decide, by decide, by decide, by decide⟩,
    emit_and_exec_reset.2 node0 step0 50 { zs0 with write_pos := 5 } execFrame
      (by decide) (by decide) (by decide) (by decide)⟩

/-- Helper: the size-0 branch of the typed write. -/
theorem put_typed_var_eq (addr : Nat) (v : Int) (st : ZS) :
    dict_put_cell_typed addr v 0 st =
      .ok (put_cell_var addr v st).1 (put_cell_var addr v st).2 := rfl

/-- Helper: the CELL branch of the typed write. -/
theorem put_typed_cell_eq (addr : Nat) (v : Int) (st : ZS) :
    dict_put_cell_typed addr v 1 st =
      .ok 4 { st with dict := storeBytesW st.dict addr (le4 (u32 v)) } := rfl

/-- Helper: the U8 branch of the typed write. -/
theorem put_typed_u8_eq (addr : Nat) (v : Int) (st : ZS) :
    dict_put_cell_typed addr v 2 st =
      .ok 1 { st with dict := storeBytesW st.dict addr [u32 v % 256] } := rfl

/-- Helper: the U16 branch of the typed write. -/
theorem put_typed_u16_eq (addr : Nat) (v : Int) (st : ZS) :
    dict_put_cell_typed addr v 3 st =
      .ok 2 { st with dict := storeBytesW st.dict addr (le2 (u32 v)) } := rfl

/-- Helper: the U32 branch of the typed write. -/
theorem put_typed_u32_eq (addr : Nat) (v : Int) (st : ZS) :
    dict_put_cell_typed addr v 4 st =
      .ok 4 { st with dict := storeBytesW st.dict addr (le4 (u32 v)) } := rfl

/-- Helper: the S8 branch of the typed write. -/
theorem put_typed_s8_eq (addr : Nat) (v : Int) (st : ZS) :
    dict_put_cell_typed addr v 5 st =
      .ok 1 { st with dict := storeBytesW st.dict addr [u32 v % 256] } := rfl

/-- Helper: the S16 branch of the typed write. -/
theorem put_typed_s16_eq (addr : Nat) (v : Int) (st : ZS) :
    dict_put_cell_typed addr v 6 st =
      .ok 2 { st with dict := storeBytesW st.dict addr (le2 (u32 v)) } := rfl

/-- Helper: the S32 branch of the typed write. -/
theorem put_typed_s32_eq (addr : Nat) (v : Int) (st : ZS) :
    dict_put_cell_typed addr v 7 st =
      .ok 4 { st with dict := storeBytesW st.dict addr (le4 (u32 v)) } := rfl

/-- Helper: the small-value branch of the variable-size write. -/
theorem put_var_small (addr : Nat) (v : Int) (st : ZS) (hv : u32 v < 128) :
    put_cell_var addr v st =
      (1, { st with dict := storeBytesW st.dict addr [u32 v] }) := by
  simp only [put_cell_var]
  rw [if_pos hv]
  rfl

/-- Helper: the two-byte branch of the variable-size write. -/
theorem put_var_mid (addr : Nat) (v : Int) (st : ZS) (hv1 : ¬ u32 v < 128)
    (hv2 : u32 v < 16384) :
    put_cell_var addr v st =
      (2, { st with
        dict := storeBytesW st.dict addr [u32 v / 256 + 128, u32 v % 256] }) := by
  simp only [put_cell_var]
  rw [if_neg hv1, if_pos hv2]
  rfl

/-- Helper: the raw-copy branch of the variable-size write. -/
theorem put_var_big (addr : Nat) (v : Int) (st : ZS) (hv1 : ¬ u32 v < 128)
    (hv2 : ¬ u32 v < 16384) :
    put_cell_var addr v st =
      (5, { st with
        dict := storeBytesW (storeBytesW st.dict addr [255]) (addr + 1)
          (le4 (u32 v)) }) := by
  simp only [put_cell_var]
  rw [if_neg hv1, if_neg hv2]
  rfl

/-- Helper: the size-0 branch of the typed read. -/
theorem get_typed_var_eq (addr : Nat) (st : ZS) :
    dict_get_cell_typed addr 0 st = .ok (get_cell_var st addr) st := rfl

/-- Helper: the CELL branch of the typed read. -/
theorem get_typed_cell_eq (addr : Nat) (st : ZS) :
    dict_get_cell_typed addr 1 st =
      .ok (i32n (from_le (dict_get_bytes st addr 4)), 4) st := rfl

/-- Helper: the U8 branch of the typed read. -/
theorem get_typed_u8_eq (addr : Nat) (st : ZS) :
    dict_get_cell_typed addr 2 st =
      .ok ((fetchB st.dict (addr % 2 ^ 32) : Int), 1) st := rfl

/-- Helper: the U16 branch of the typed read. -/
theorem get_typed_u16_eq (addr : Nat) (st : ZS) :
    dict_get_cell_typed addr 3 st =
      .ok (((fetchB st.dict (addr % 2 ^ 32) +
        256 * fetchB st.dict ((addr + 1) % 2 ^ 32) : Nat) : Int), 2) st := rfl

/-- Helper: the U32 branch of the typed read. -/
theorem get_typed_u32_eq (addr : Nat) (st : ZS) :
    dict_get_cell_typed addr 4 st =
      .ok (i32n (from_le (dict_get_bytes st addr 4)), 4) st := rfl

/-- Helper: the S8 branch of the typed read. -/
theorem get_typed_s8_eq (addr : Nat) (st : ZS) :
    dict_get_cell_typed addr 5 st =
      .ok (if fetchB st.dict (addr % 2 ^ 32) < 128 then
          (fetchB st.dict (addr % 2 ^ 32) : Int)
        else (fetchB st.dict (addr % 2 ^ 32) : Int) - 256, 1) st := rfl

/-- Helper: the S16 branch of the typed read. -/
theorem get_typed_s16_eq (addr : Nat) (st : ZS) :
    dict_get_cell_typed addr 6 st =
      .ok (if fetchB st.dict (addr % 2 ^ 32) +
          256 * fetchB st.dict ((addr + 1) % 2 ^ 32) < 2 ^ 15 then
          ((fetchB st.dict (addr % 2 ^ 32) +
            256 * fetchB st.dict ((addr + 1) % 2 ^ 32) : Nat) : Int)
        else ((fetchB st.dict (addr % 2 ^ 32) +
            256 * fetchB st.dict ((addr + 1) % 2 ^ 32) : Nat) : Int) - 2 ^ 16,
        2) st := rfl

/-- Helper: the S32 branch of the typed read. -/
theorem get_typed_s32_eq (addr : Nat) (st : ZS) :
    dict_get_cell_typed addr 7 st =
      .ok (i32n (from_le (dict_get_bytes st addr 4)), 4) st := rfl

set_option maxHeartbeats 2000000 in
/-- Claim C4: writing a cell with `dict_put_cell_typed` and reading it
back with `dict_get_cell_typed` at the same address and size yields the
value truncated to the declared width (exactly the value for the 32-bit
sizes, in particular `VAR` and `CELL`), and the two byte counts agree. -/
theorem typed_cell_roundtrip (s : ZS) (addr : Nat) (v : Int) (size : Int)
    (hs0 : 0 ≤ size) (hs : size < 8)
    (h1 : -(2 ^ 31) ≤ v) (h2 : v < 2 ^ 31) :
    ∃ (len : Nat) (s1 : ZS),
      dict_put_cell_typed addr v size s = .ok len s1 ∧
      dict_get_cell_typed addr size s1 = .ok (trunc_width size v, len) s1 := by
  have hcast := u32_cast v
  have hsz : size = 0 ∨ size = 1 ∨ size = 2 ∨ size = 3 ∨ size = 4 ∨
      size = 5 ∨ size = 6 ∨ size = 7 := by omega
  have htr0 : trunc_width 0 v = v := rfl
  have htr1 : trunc_width 1 v = v := rfl
  have htr2 : trunc_width 2 v = v % 256 := rfl
  have htr3 : trunc_width 3 v = v % 65536 := rfl
  have htr4 : trunc_width 4 v = v := rfl
  have htr5 : trunc_width 5 v = Int.bmod v 256 := rfl
  have htr6 : trunc_width 6 v = Int.bmod v 65536 := rfl
  have htr7 : trunc_width 7 v = v := rfl
  rcases hsz with rfl | rfl | rfl | rfl | rfl | rfl | rfl | rfl
  · -- VAR
    by_cases hv1 : u32 v < 128
    · refine ⟨1, { s with dict := storeBytesW s.dict addr [u32 v] }, ?_, ?_⟩
      · rw [put_typed_var_eq, put_var_small addr v s hv1]
      · have ht0 : fetchB (storeBytesW s.dict addr [u32 v]) (addr % 2 ^ 32) =
            u32 v := by
          have h := t0_read s.dict addr [u32 v] (by simp) (by norm_num)
          have e : [u32 v].getD 0 0 = u32 v := rfl
          rw [e] at h
          omega
        rw [get_typed_var_eq, htr0]
        simp only [get_cell_var]
        rw [ht0, if_neg (by omega)]
        rw [show ((u32 v : Nat) : Int) = v by omega]
    · by_cases hv2 : u32 v < 16384
      · refine ⟨2, { s with
          dict := storeBytesW s.dict addr [u32 v / 256 + 128, u32 v % 256] }, ?_, ?_⟩
        · rw [put_typed_var_eq, put_var_mid addr v s hv1 hv2]
        · have ht0 : fetchB (storeBytesW s.dict addr
              [u32 v / 256 + 128, u32 v % 256]) (addr % 2 ^ 32) =
              u32 v / 256 + 128 := by
            have h := t0_read s.dict addr [u32 v / 256 + 128, u32 v % 256]
              (by simp) (by norm_num)
            have e : [u32 v / 256 + 128, u32 v % 256].getD 0 0 =
                u32 v / 256 + 128 := rfl
            rw [e] at h
            omega
          have ht1 : fetchB (storeBytesW s.dict addr
              [u32 v / 256 + 128, u32 v % 256]) ((addr + 1) % 2 ^ 32) =
              u32 v % 256 := by
            have h := t1_read s.dict addr [u32 v / 256 + 128, u32 v % 256]
              (by simp) (by norm_num)
            have e : [u32 v / 256 + 128, u32 v % 256].getD 1 0 =
                u32 v % 256 := rfl
            rw [e] at h
            omega
          rw [get_typed_var_eq, htr0]
          simp only [get_cell_var]
          rw [ht0, ht1, if_pos (by omega), if_neg (by omega)]
          rw [show (((u32 v / 256 + 128) % 64 * 256 + u32 v % 256 : Nat) : Int) =
            v by push_cast; omega]
      · refine ⟨5, { s with
          dict := storeBytesW (storeBytesW s.dict addr [255]) (addr + 1)
            (le4 (u32 v)) }, ?_, ?_⟩
        · rw [put_typed_var_eq, put_var_big addr v s hv1 hv2]
        · have ht0 : fetchB (storeBytesW (storeBytesW s.dict addr [255])
              (addr + 1) (le4 (u32 v))) (addr % 2 ^ 32) = 255 := by
            rw [fetch_storeBytesW_notin]
            · have h := t0_read s.dict addr [255] (by simp) (by norm_num)
              simpa using h
            · intro j hj
              simp only [le4, List.length_cons, List.length_nil] at hj
              omega
          have hget := get32_after_store (storeBytesW s.dict addr [255])
            (addr + 1) (u32 v)
          rw [get_typed_var_eq, htr0]
          simp only [get_cell_var]
          rw [ht0, if_pos (by omega), if_pos rfl]
          simp only [dict_get_bytes]
          rw [hget, Nat.mod_eq_of_lt (u32_lt v), i32n_u32 v h1 h2]
  · -- CELL
    refine ⟨4, { s with dict := storeBytesW s.dict addr (le4 (u32 v)) }, ?_, ?_⟩
    · exact put_typed_cell_eq addr v s
    · rw [get_typed_cell_eq, htr1]
      simp only [dict_get_bytes]
      rw [get32_after_store s.dict addr (u32 v), Nat.mod_eq_of_lt (u32_lt v),
        i32n_u32 v h1 h2]
  · -- U8
    refine ⟨1, { s with dict := storeBytesW s.dict addr [u32 v % 256] }, ?_, ?_⟩
    · exact put_typed_u8_eq addr v s
    · have ht0 : fetchB (storeBytesW s.dict addr [u32 v % 256]) (addr % 2 ^ 32) =
          u32 v % 256 := by
        have h := t0_read s.dict addr [u32 v % 256] (by simp) (by norm_num)
        have e : [u32 v % 256].getD 0 0 = u32 v % 256 := rfl
        rw [e] at h
        omega
      rw [get_typed_u8_eq, htr2]
      simp only []
      rw [ht0]
      rw [show ((u32 v % 256 : Nat) : Int) = v % 256 by push_cast; omega]
  · -- U16
    refine ⟨2, { s with dict := storeBytesW s.dict addr (le2 (u32 v)) }, ?_, ?_⟩
    · exact put_typed_u16_eq addr v s
    · have ht0 : fetchB (storeBytesW s.dict addr (le2 (u32 v))) (addr % 2 ^ 32) =
          u32 v % 256 := by
        have h := t0_read s.dict addr (le2 (u32 v)) (by simp [le2]) (by norm_num [le2])
        have e : (le2 (u32 v)).getD 0 0 = u32 v % 256 := rfl
        rw [e] at h
        omega
      have ht1 : fetchB (storeBytesW s.dict addr (le2 (u32 v)))
          ((addr + 1) % 2 ^ 32) = u32 v / 256 % 256 := by
        have h := t1_read s.dict addr (le2 (u32 v)) (by simp [le2]) (by norm_num [le2])
        have e : (le2 (u32 v)).getD 1 0 = u32 v / 256 % 256 := rfl
        rw [e] at h
        omega
      rw [get_typed_u16_eq, htr3]
      rw [ht0, ht1]
      rw [show ((u32 v % 256 + 256 * (u32 v / 256 % 256) : Nat) : Int) =
        v % 65536 by push_cast; omega]
  · -- U32
    refine ⟨4, { s with dict := storeBytesW s.dict addr (le4 (u32 v)) }, ?_, ?_⟩
    · exact put_typed_u32_eq addr v s
    · rw [get_typed_u32_eq, htr4]
      simp only [dict_get_bytes]
      rw [get32_after_store s.dict addr (u32 v), Nat.mod_eq_of_lt (u32_lt v),
        i32n_u32 v h1 h2]
  · -- S8
    refine ⟨1, { s with dict := storeBytesW s.dict addr [u32 v % 256] }, ?_, ?_⟩
    · exact put_typed_s8_eq addr v s
    · have ht0 : fetchB (storeBytesW s.dict addr [u32 v % 256]) (addr % 2 ^ 32) =
          u32 v % 256 := by
        have h := t0_read s.dict addr [u32 v % 256] (by simp) (by norm_num)
        have e : [u32 v % 256].getD 0 0 = u32 v % 256 := rfl
        rw [e] at h
        omega
      rw [get_typed_s8_eq, htr5]
      rw [ht0]
      rw [show (if u32 v % 256 < 128 then ((u32 v % 256 : Nat) : Int)
        else ((u32 v % 256 : Nat) : Int) - 256) = Int.bmod v 256 by
          simp only [Int.bmod]
          split <;> split <;> (push_cast at *; omega)]
  · -- S16
    refine ⟨2, { s with dict := storeBytesW s.dict addr (le2 (u32 v)) }, ?_, ?_⟩
    · exact put_typed_s16_eq addr v s
    · have ht0 : fetchB (storeBytesW s.dict addr (le2 (u32 v))) (addr % 2 ^ 32) =
          u32 v % 256 := by
        have h := t0_read s.dict addr (le2 (u32 v)) (by simp [le2]) (by norm_num [le2])
        have e : (le2 (u32 v)).getD 0 0 = u32 v % 256 := rfl
        rw [e] at h
        omega
      have ht1 : fetchB (storeBytesW s.dict addr (le2 (u32 v)))
          ((addr + 1) % 2 ^ 32) = u32 v / 256 % 256 := by
        have h := t1_read s.dict addr (le2 (u32 v)) (by simp [le2]) (by norm_num [le2])
        have e : (le2 (u32 v)).getD 1 0 = u32 v / 256 % 256 := rfl
        rw [e] at h
        omega
      rw [get_typed_s16_eq, htr6]
      rw [ht0, ht1]
      rw [show (if u32 v % 256 + 256 * (u32 v / 256 % 256) < 2 ^ 15 then
          ((u32 v % 256 + 256 * (u32 v / 256 % 256) : Nat) : Int)
        else ((u32 v % 256 + 256 * (u32 v / 256 % 256) : Nat) : Int) - 2 ^ 16) =
        Int.bmod v 65536 by
          simp only [Int.bmod]
          split <;> split <;> (push_cast at *; omega)]
  · -- S32
    refine ⟨4, { s with dict := storeBytesW s.dict addr (le4 (u32 v)) }, ?_, ?_⟩
    · exact put_typed_s32_eq addr v s
    · rw [get_typed_s32_eq, htr7]
      simp only [dict_get_bytes]
      rw [get32_after_store s.dict addr (u32 v), Nat.mod_eq_of_lt (u32_lt v),
        i32n_u32 v h1 h2]

/-- Witness for C4: size S8 at address 0 with value -1 (stored byte 255,
read back as -1 with length 1 both ways). -/
theorem typed_cell_roundtrip_witness :
    ((0 : Int) ≤ 5 ∧ (5 : Int) < 8 ∧ -(2 ^ 31) ≤ (-1 : Int) ∧ (-1 : Int) < 2 ^ 31) ∧
    (∃ (len : Nat) (s1 : ZS),
      dict_put_cell_typed 0 (-1) 5 zs0 = .ok len s1 ∧
      dict_get_cell_typed 0 5 s1 = .ok (trunc_width 5 (-1), len) s1) :=
  ⟨⟨by decide, by decide, by decide, by decide⟩,
    typed_cell_roundtrip zs0 0 (-1) 5 (by decide) (by decide) (by decide)
      (by decide)⟩

set_option maxRecDepth 40000 in
/-- Claim C5: whenever the evaluation loop aborts, `zf_eval` returns the
abort reason and the recovery arm has set DSP, RSP and COMPILING to 0;
in particular the `/` primitive with a zero divisor aborts with
`ZF_ABORT_DIVISION_BY_ZERO`; and concretely, evaluating `1 0 /` returns
that reason with cleared stacks, after which a following evaluation of a
valid program (`8 2 /`) succeeds. -/
theorem abort_resets_vm :
    (∀ (src : Src) (fuel : Nat) (s : ZS) (r : ZR) (s1 : ZS),
      eval_loop src 0 fuel s = .err (.abort r) s1 →
      zf_eval src fuel s = (some r, abort_reset s1) ∧
      (abort_reset s1).dsp = 0 ∧ (abort_reset s1).rsp = 0 ∧
      getUv (abort_reset s1) 3 = 0) ∧
    (∀ (inp : Option (List Nat)) (fuel : Nat) (s : ZS),
      (zf_pop s).1 = 0 →
      do_prim 8 inp fuel s = .err (.abort .zDivisionByZero) (zf_pop s).2) ∧
    ((zf_eval (.str (strB ("1 0 /"))) 100 divS).1 = some .zDivisionByZero ∧
     (zf_eval (.str (strB ("1 0 /"))) 100 divS).2.dsp = 0 ∧
     (zf_eval (.str (strB ("1 0 /"))) 100 divS).2.rsp = 0 ∧
     getUv (zf_eval (.str (strB ("1 0 /"))) 100 divS).2 3 = 0 ∧
     (zf_eval (.str (strB ("8 2 /"))) 100
       (zf_eval (.str (strB ("1 0 /"))) 100 divS).2).1 = some .zOk) := by
  refine ⟨?_, ?_, ?_⟩
  · intro src fuel s r s1 h
    have hz : zf_eval src fuel s = (some r, abort_reset s1) := by
      unfold zf_eval
      rw [h]
    refine ⟨hz, rfl, rfl, ?_⟩
    show fetch32 (store32 s1.dict (4 * 3) (0 % 2 ^ 32)) (4 * 3) = 0
    rw [fetch32_store32]
    norm_num
  · intro inp fuel s h
    have e : do_prim 8 inp fuel s =
        (if (zf_pop s).1 = 0 then
          Res.err (.abort .zDivisionByZero) (zf_pop s).2
        else .ok () (zf_push (i32 (Int.tdiv ((zf_pop (zf_pop s).2).1)
          ((zf_pop s).1))) ((zf_pop (zf_pop s).2).2))) := rfl
    rw [e, if_pos h]
  · decide

/-- Witness for C5: the abort-reset law at the `NOT_A_WORD` abort of the
unknown token `q` in the empty VM, and the division guard on a stack
whose unchecked top reads 0. -/
theorem abort_resets_vm_witness :
    (eval_loop (.str (strB ("q"))) 0 50 zs0 = .err (.abort .zNotAWord) evalqS ∧
     zf_eval (.str (strB ("q"))) 50 zs0 = (some .zNotAWord, abort_reset evalqS) ∧
     getUv (abort_reset evalqS) 3 = 0) ∧
    ((zf_pop zs0).1 = 0 ∧
     do_prim 8 none 0 zs0 = .err (.abort .zDivisionByZero) (zf_pop zs0).2) :=
  ⟨⟨by decide,
    (abort_resets_vm.1 (.str (strB ("q"))) 50 zs0 .zNotAWord evalqS (by decide)).1,
    (abort_resets_vm.1 (.str (strB ("q"))) 50 zs0 .zNotAWord evalqS (by decide)).2.2.2⟩,
   ⟨by decide, abort_resets_vm.2.1 none 0 zs0 (by decide)⟩⟩

/-! ## Abort-reason coverage for claim C9 -/

theorem okA_err {β : Type} (e : VmErr) (s2 s3 : ZS) {α : Type} (x : Res α)
    (hx : resOkAbort x) (h : x = .err e s2) :
    resOkAbort (Res.err e s3 : Res β) := by
  rw [h] at hx
  cases e with
  | fuel => trivial
  | abort z => exact hx

theorem okA_put_typed (addr : Nat) (v size : Int) (s : ZS) :
    resOkAbort (dict_put_cell_typed addr v size s) := by
  unfold dict_put_cell_typed
  repeat' split
  all_goals first
  | trivial
  | exact Or.inr (Or.inr (Or.inl rfl))

theorem okA_get_typed (addr : Nat) (size : Int) (s : ZS) :
    resOkAbort (dict_get_cell_typed addr size s) := by
  unfold dict_get_cell_typed
  repeat' split
  all_goals first
  | trivial
  | exact Or.inr (Or.inr (Or.inl rfl))

theorem okA_peek (addr : Nat) (len : Int) (s : ZS) :
    resOkAbort (peek addr len s) := by
  unfold peek
  split
  · trivial
  · exact okA_get_typed addr len s

theorem okA_add_typed (v size : Int) (s : ZS) :
    resOkAbort (dict_add_cell_typed v size s) := by
  simp only [dict_add_cell_typed]
  split
  · trivial
  · exact okA_err _ _ _ _ (okA_put_typed _ v size s) (by assumption)

theorem okA_parse_num (buf : List Nat) (s : ZS) :
    resOkAbort (parse_num buf s) := by
  unfold parse_num
  split
  · trivial
  · exact Or.inr (Or.inl rfl)

theorem okA_find_word_loop (name : List Nat) (w fuel : Nat) (s : ZS) :
    resOkAbort (find_word_loop name w fuel s) := by
  induction fuel generalizing w s with
  | zero => trivial
  | succ f ih =>
    rw [find_word_loop]
    dsimp only
    repeat' split
    all_goals first
    | trivial
    | exact ih _ _

theorem okA_find_word (name : List Nat) (fuel : Nat) (s : ZS) :
    resOkAbort (find_word name fuel s) :=
  okA_find_word_loop name (getUv s 1) fuel s

theorem okA_do_prim (op : Nat) (inp : Option (List Nat)) (fuel : Nat) (s : ZS) :
    resOkAbort (do_prim op inp fuel s) := by
  unfold do_prim
  split
  all_goals try trivial
  all_goals try (cases inp <;> trivial)
  all_goals try (cases inp <;> (repeat' split) <;> trivial)
  all_goals repeat' split
  all_goals first
  | trivial
  | exact Or.inl rfl
  | exact Or.inr (Or.inl rfl)
  | exact Or.inr (Or.inr (Or.inl rfl))
  | exact Or.inr (Or.inr (Or.inr rfl))
  | exact okA_err _ _ _ _ (okA_peek _ _ _) (by assumption)
  | exact okA_err _ _ _ _ (okA_put_typed _ _ _ _) (by assumption)
  | exact okA_err _ _ _ _ (okA_add_typed _ _ _) (by assumption)
  | exact okA_err _ _ _ _ (okA_find_word _ _ _) (by assumption)

theorem okA_run_loop (inp : Option (List Nat)) (fuel : Nat) (s : ZS) :
    resOkAbort (run_loop inp fuel s) := by
  induction fuel generalizing inp s with
  | zero => trivial
  | succ f ih =>
    rw [run_loop]
    dsimp only
    repeat' split
    all_goals first
    | exact ih _ _
    | exact okA_err _ _ _ _ (okA_do_prim _ _ _ _) (by assumption)
    | trivial

theorem okA_execute (addr fuel : Nat) (s : ZS) :
    resOkAbort (execute addr fuel s) :=
  okA_run_loop none fuel _

theorem okA_handle_word (buf : List Nat) (fuel : Nat) (s : ZS) :
    resOkAbort (handle_word buf fuel s) := by
  unfold handle_word
  split
  · exact okA_run_loop _ _ _
  · cases hf : find_word buf fuel s with
    | err e s1 =>
      exact okA_err _ _ _ _ (okA_find_word buf fuel s) hf
    | ok oc s1 =>
      rcases oc with _ | ⟨w, c⟩
      · dsimp only
        cases hp : parse_num buf s1 with
        | err e s2 =>
          exact okA_err _ _ _ _ (okA_parse_num buf s1) hp
        | ok v s2 =>
          dsimp only
          split <;> trivial
      · dsimp only
        repeat' split
        all_goals first
        | exact okA_execute _ _ _
        | trivial

theorem okA_handle_char (c fuel : Nat) (s : ZS) :
    resOkAbort (handle_char c fuel s) := by
  unfold handle_char
  repeat' split
  all_goals first
  | exact okA_run_loop _ _ _
  | exact okA_handle_word _ _ _
  | trivial

theorem okA_eval_loop (src : Src) (pos fuel : Nat) (s : ZS) :
    resOkAbort (eval_loop src pos fuel s) := by
  induction fuel generalizing pos s with
  | zero => trivial
  | succ f ih =>
    rw [eval_loop]
    repeat' split
    all_goals first
    | exact ih _ _
    | exact okA_err _ _ _ _ (okA_handle_char _ _ _) (by assumption)
    | trivial

/-- Claim C9: with `ZF_ENABLE_BOUNDARY_CHECKS = 0` no stack or
dictionary bounds check exists, so `zf_eval` can never return the stack
under/overrun or outside-memory abort codes, whatever the program and
starting state; and a pop from an empty stack is an unchecked
out-of-bounds access — the unsigned stack pointer wraps to `2^32 - 1`
and the junk cell at that index is returned, with no abort. -/
theorem no_bounds_aborts :
    (∀ (src : Src) (fuel : Nat) (s : ZS) (r : ZR) (s1 : ZS),
      zf_eval src fuel s = (some r, s1) →
      r ≠ .zDstackUnderrun ∧ r ≠ .zDstackOverrun ∧ r ≠ .zRstackUnderrun ∧
      r ≠ .zRstackOverrun ∧ r ≠ .zOutsideMem) ∧
    (∀ s : ZS, s.dsp = 0 →
      zf_pop s = (fetchC s.dstack (2 ^ 32 - 1), { s with dsp := 2 ^ 32 - 1 })) := by
  constructor
  · intro src fuel s r s1 h
    have hok := okA_eval_loop src 0 fuel s
    unfold zf_eval at h
    cases he : eval_loop src 0 fuel s with
    | ok a s2 =>
      rw [he] at h
      have : r = .zOk := by
        have := congrArg Prod.fst h
        simpa using this.symm
      subst this
      refine ⟨?_, ?_, ?_, ?_, ?_⟩ <;> decide
    | err e s2 =>
      rw [he] at hok
      rw [he] at h
      cases e with
      | fuel => simp at h
      | abort z =>
        have hr : r = z := by
          have := congrArg Prod.fst h
          simpa using this.symm
        subst hr
        rcases hok with h1 | h1 | h1 | h1 <;> subst h1 <;>
          (refine ⟨?_, ?_, ?_, ?_, ?_⟩ <;> decide)
  · intro s h
    have e1 : subw s.dsp 1 = 2 ^ 32 - 1 := by
      rw [h]
      rfl
    unfold zf_pop
    rw [e1]

/-- Witness for C9: the never-returned codes at the concrete
`NOT_A_WORD` abort of token `q`, and the unchecked pop from the empty
initial stack. -/
theorem no_bounds_aborts_witness :
    (zf_eval (.str (strB ("q"))) 50 zs0 = (some .zNotAWord, abort_reset evalqS) ∧
     (ZR.zNotAWord ≠ ZR.zDstackUnderrun ∧ ZR.zNotAWord ≠ ZR.zDstackOverrun ∧
      ZR.zNotAWord ≠ ZR.zRstackUnderrun ∧ ZR.zNotAWord ≠ ZR.zRstackOverrun ∧
      ZR.zNotAWord ≠ ZR.zOutsideMem)) ∧
    (zs0.dsp = 0 ∧
     zf_pop zs0 = (fetchC zs0.dstack (2 ^ 32 - 1), { zs0 with dsp := 2 ^ 32 - 1 })) :=
  ⟨⟨by decide,
    no_bounds_aborts.1 (.str (strB ("q"))) 50 zs0 .zNotAWord (abort_reset evalqS)
      (by decide)⟩,
   ⟨rfl, no_bounds_aborts.2 zs0 rfl⟩⟩

end SRAM
